import Mathlib

/-!
Verification of the wite2_tools integrity-checking and repair engine.

This file gives a shallow embedding of the core of the `wite2_tools`
package (CSV auditing, orphan analysis, upgrade-chain tracing and the
in-place mutation pipeline) and proves properties about it.

Modelling conventions:
  * a CSV file is a list of rows; a dict-style row (`csv.DictReader`) is a
    structure whose fields are the cells the code reads, each an
    `Option String` (`none` models a column that is absent, so that
    `row.get(col)` returns Python `None`); a list-style row
    (`csv.reader`) is a `List String`;
  * `parse_int` / `parse_str` mirror `wite2_tools.utils.parsing`;
  * Python `dict` objects built by insertion are association lists with
    overwrite-on-repeat semantics (`dictInsert` / `dictGet`);
  * the unbounded `while` loops of the chain walks are written with an
    explicit fuel argument together with a `Bool` flag telling whether the
    walk stopped through one of its own stop conditions (`true`) or by
    exhausting the fuel (`false`); the wrappers pass the fuel for which
    sufficiency is proved, so the flag being provably `true` is exactly
    the termination of the Python loop;
  * file-system effects (temporary file, `os.replace`, `os.remove`) are
    explicit state; logging and console reporting are dropped.
-/

namespace Wite2

/-! ## utils/parsing.py -/

/-- Accumulator run over the digits of a decimal literal; any non-digit
character fails the parse, as Python `int()` raises `ValueError`. -/
def digitsToNat : List Char → Nat → Option Nat
  | [], acc => some acc
  | c :: cs, acc =>
    if c.isDigit then digitsToNat cs (acc * 10 + (c.toNat - 48)) else none

/-- The integer parse underlying Python `int(s)` on CSV cells: an
optional leading minus sign followed by at least one decimal digit;
anything else fails.  (Written by structural recursion over the
characters so that concrete runs reduce inside the kernel.) -/
def str_to_int? (s : String) : Option Int :=
  match s.data with
  | [] => none
  | '-' :: cs =>
    match cs with
    | [] => none
    | _ => (digitsToNat cs 0).map (fun n => -(n : Int))
  | cs => (digitsToNat cs 0).map (fun n => (n : Int))

/-- Embeds `wite2_tools.utils.parsing.parse_int`: `None` or the empty
string give the default, a non-numeric string gives the default, and a
numeric string parses. -/
def parse_int (value : Option String) (default : Int) : Int :=
  match value with
  | none => default
  | some s => if s = "" then default else (str_to_int? s).getD default

/-- Embeds `wite2_tools.utils.parsing.parse_str`: `None` gives the
default, otherwise the string is whitespace-stripped (Python
`str.strip`). -/
def parse_str (value : Option String) (default : String) : String :=
  match value with
  | none => default
  | some s =>
    String.mk (((s.data.dropWhile Char.isWhitespace).reverse.dropWhile
      Char.isWhitespace).reverse)

/-- Embeds the Python idiom `value or default` on an optional CSV cell:
`None` and the empty string are falsy. -/
def py_or (value : Option String) (default : String) : String :=
  match value with
  | none => default
  | some s => if s = "" then default else s

/-! ## Python dicts as association lists -/

/-- Lookup in an insertion-ordered dict. -/
def dictGet {β : Type} (m : List (Int × β)) (k : Int) : Option β :=
  match m with
  | [] => none
  | (a, b) :: rest => if a = k then some b else dictGet rest k

/-- Insertion into an insertion-ordered dict, overwriting an existing
binding in place as Python `d[k] = v` does. -/
def dictInsert {β : Type} (m : List (Int × β)) (k : Int) (v : β) : List (Int × β) :=
  match m with
  | [] => [(k, v)]
  | (a, b) :: rest => if a = k then (k, v) :: rest else (a, b) :: dictInsert rest k v

theorem dictGet_mem_values {β : Type} (m : List (Int × β)) (k : Int) (v : β)
    (h : dictGet m k = some v) : v ∈ m.map Prod.snd := by
  induction m with
  | nil => simp [dictGet] at h
  | cons p rest ih =>
    obtain ⟨a, b⟩ := p
    by_cases hak : a = k
    · simp [dictGet, hak] at h
      simp [h]
    · simp [dictGet, hak] at h
      simpa using Or.inr (ih h)

/-! ## modifiers/base.py : process_csv_in_place -/

/-- Outcome of the row-streaming loop of `process_csv_in_place`: either a
row transform raised (carrying the exception and the update count
accumulated so far, which the handler falls through to return), or the
stream finished with a count and the rows written to the temporary
file. -/
inductive PcipOutcome (ε α : Type) : Type
  | failed (e : ε) (count : Nat)
  | finished (count : Nat) (written : List α)

/-- The row loop of `process_csv_in_place`: each source row is passed to
the transform together with its 1-based index; on success the (possibly
modified) row is appended to the temporary file and the update count is
bumped when the transform reports a modification; on an exception the
loop stops at once. -/
def pcip_loop {ε α : Type} (proc : α → Nat → Except ε (α × Bool)) :
    List α → Nat → Nat → List α → PcipOutcome ε α
  | [], _, count, written => .finished count written
  | r :: rest, idx, count, written =>
    match proc r idx with
    | .error e => .failed e count
    | .ok (r2, modified) =>
      pcip_loop proc rest (idx + 1) (if modified then count + 1 else count) (written ++ [r2])

/-- Observable file-system state around one `process_csv_in_place` call:
the contents of the original file (`none` when the file does not exist)
and the contents of the temporary file (`none` once discarded or
renamed away). -/
structure CsvFS (α : Type) : Type where
  orig : Option (List α)
  temp : Option (List α)

/-- Embeds `wite2_tools.modifiers.base.process_csv_in_place`.  A missing
source file returns 0 with nothing written.  Otherwise the stream is
written to a temporary file; on a mid-stream exception the temporary
file is removed and the original left alone; on completion the original
is atomically replaced only when at least one row was modified, and the
temporary file is removed otherwise.  Returns the final file-system
state and the returned update count. -/
def process_csv_in_place {ε α : Type} (file : Option (List α))
    (proc : α → Nat → Except ε (α × Bool)) : CsvFS α × Nat :=
  match file with
  | none => (⟨none, none⟩, 0)
  | some rows =>
    match pcip_loop proc rows 1 0 [] with
    | .failed _ count => (⟨some rows, none⟩, count)
    | .finished count written =>
      if count = 0 then (⟨some rows, none⟩, 0)
      else (⟨some written, none⟩, count)

theorem pcip_loop_failed_of_error {ε α : Type} (proc : α → Nat → Except ε (α × Bool))
    (rows : List α) :
    ∀ idx count written, (∃ i, ∃ h : i < rows.length,
      ∃ e, proc (rows.get ⟨i, h⟩) (idx + i) = .error e) →
    ∃ e c, pcip_loop proc rows idx count written = .failed e c := by
  induction rows with
  | nil =>
    intro idx count written h
    obtain ⟨i, hi, _⟩ := h
    exact absurd hi (by simp)
  | cons r rest ih =>
    intro idx count written h
    obtain ⟨i, hi, e, he⟩ := h
    cases i with
    | zero =>
      simp at he
      refine ⟨e, count, ?_⟩
      simp [pcip_loop, he]
    | succ j =>
      cases hp : proc r idx with
      | error e0 =>
        exact ⟨e0, count, by simp [pcip_loop, hp]⟩
      | ok pr =>
        obtain ⟨r2, modified⟩ := pr
        have hrec := ih (idx + 1) (if modified then count + 1 else count) (written ++ [r2])
          ⟨j, by simpa using Nat.lt_of_succ_lt_succ hi, e, by
            have : idx + 1 + j = idx + (j + 1) := by omega
            rw [this]
            simpa using he⟩
        obtain ⟨e2, c2, hc⟩ := hrec
        exact ⟨e2, c2, by simpa [pcip_loop, hp] using hc⟩

theorem pcip_loop_all_unmodified {ε α : Type} (proc : α → Nat → Except ε (α × Bool))
    (hproc : ∀ r i, ∃ r2, proc r i = .ok (r2, false)) (rows : List α) :
    ∀ idx count written, ∃ w, pcip_loop proc rows idx count written = .finished count w := by
  induction rows with
  | nil =>
    intro idx count written
    exact ⟨written, rfl⟩
  | cons r rest ih =>
    intro idx count written
    obtain ⟨r2, hr2⟩ := hproc r idx
    obtain ⟨w, hw⟩ := ih (idx + 1) count (written ++ [r2])
    exact ⟨w, by simpa [pcip_loop, hr2] using hw⟩

/-- Claim C2: for every source file and every row transform, if the
transform raises an exception on some row partway through the stream,
`process_csv_in_place` leaves the original source file byte-for-byte
unchanged (the atomic replace is never performed) and the temporary
file is discarded, so a partial write is never observable. -/
theorem c2_pcip_exception_rolls_back {ε α : Type} (rows : List α)
    (proc : α → Nat → Except ε (α × Bool))
    (hfail : ∃ i, ∃ h : i < rows.length, ∃ e, proc (rows.get ⟨i, h⟩) (1 + i) = .error e) :
    (process_csv_in_place (some rows) proc).1.orig = some rows ∧
      (process_csv_in_place (some rows) proc).1.temp = none := by
  obtain ⟨e, c, hc⟩ := pcip_loop_failed_of_error proc rows 1 0 [] hfail
  constructor <;> simp [process_csv_in_place, hc]

/-- Claim C2 witness: a transform that raises on row 2 of 3 leaves the
original three-row file untouched and the temporary file discarded. -/
theorem c2_pcip_exception_rolls_back_witness :
    (process_csv_in_place (some [10, 20, 30])
        (fun (r : Nat) (_ : Nat) => if r = 20 then (.error "boom") else .ok (r, true))).1.orig
      = some [10, 20, 30] ∧
    (process_csv_in_place (some [10, 20, 30])
        (fun (r : Nat) (_ : Nat) => if r = 20 then (.error "boom") else .ok (r, true))).1.temp
      = none := by
  exact c2_pcip_exception_rolls_back [10, 20, 30]
    (fun (r : Nat) (_ : Nat) => if r = 20 then (.error "boom") else .ok (r, true))
    ⟨1, by decide, "boom", rfl⟩

/-- Claim C7: for every source file and every row transform, if the
transform reports `was_modified = False` for every row,
`process_csv_in_place` leaves the original file unmodified (the
temporary file is deleted, the original never replaced) and returns 0. -/
theorem c7_pcip_no_changes_is_noop {ε α : Type} (rows : List α)
    (proc : α → Nat → Except ε (α × Bool))
    (hproc : ∀ r i, ∃ r2, proc r i = .ok (r2, false)) :
    (process_csv_in_place (some rows) proc).1.orig = some rows ∧
      (process_csv_in_place (some rows) proc).1.temp = none ∧
      (process_csv_in_place (some rows) proc).2 = 0 := by
  obtain ⟨w, hw⟩ := pcip_loop_all_unmodified proc hproc rows 1 0 []
  refine ⟨?_, ?_, ?_⟩ <;> simp [process_csv_in_place, hw]

/-- Claim C7 witness: an identity transform reporting no change on a
two-row file leaves the file alone and returns 0. -/
theorem c7_pcip_no_changes_is_noop_witness :
    (process_csv_in_place (some [5, 7])
        (fun (r : Nat) (_ : Nat) => (.ok (r, false) : Except String (Nat × Bool)))).1.orig
      = some [5, 7] ∧
    (process_csv_in_place (some [5, 7])
        (fun (r : Nat) (_ : Nat) => (.ok (r, false) : Except String (Nat × Bool)))).1.temp
      = none ∧
    (process_csv_in_place (some [5, 7])
        (fun (r : Nat) (_ : Nat) => (.ok (r, false) : Except String (Nat × Bool)))).2 = 0 := by
  exact c7_pcip_no_changes_is_noop [5, 7] _ (fun r i => ⟨r, rfl⟩)

/-! ## constants.py -/

/-- Engine limit `MAX_SQUAD_SLOTS` from `wite2_tools.constants`. -/
def MAX_SQUAD_SLOTS : Nat := 32

/-- Map bound `MIN_X`. -/
def MIN_X : Int := 0

/-- Map bound `MIN_Y`. -/
def MIN_Y : Int := 0

/-- Map bound `MAX_X`. -/
def MAX_X : Int := 378

/-- Map bound `MAX_Y`. -/
def MAX_Y : Int := 354

/-- Engine limit `MAX_GAME_TURNS`. -/
def MAX_GAME_TURNS : Int := 225

/-! ## The `_unit.csv` dict-style row

Only the cells read by `evaluate_unit_consistency` are modelled.  The
Python column names `id`, `name` and `type` clash with Lean keywords or
field conventions, so they are carried as `uid`, `uname`, `utype`.  The
squad slot columns `sqd.u0`..`sqd.u31` and `sqd.num0`..`sqd.num31` are
the two lists, position `i` holding the cell of index `i` (`none` when
the column is absent from the file).  All remaining columns of the row
travel untouched in `rest`, so that rewriting a row can be compared to
the original byte for byte. -/

structure UnitRow : Type where
  uid : Option String
  uname : Option String
  utype : Option String
  x : Option String
  y : Option String
  tx : Option String
  ty : Option String
  ax : Option String
  ay : Option String
  ptx : Option String
  pty : Option String
  hq : Option String
  hhq : Option String
  delay : Option String
  sqd_u : List (Option String)
  sqd_num : List (Option String)
  rest : List (String × String)
  deriving Repr, DecidableEq

/-! ## utils/get_valid_ids.py -/

/-- Embeds `get_valid_ground_elem_ids`: list-style rows of the
`_ground.csv` file, id in column 0 and type in column 3
(`GroundColumn.ID`, `GroundColumn.TYPE`); a row too short for an access
raises `IndexError` and is skipped. -/
def get_valid_ground_elem_ids (rows : List (List String)) : Finset Int :=
  rows.foldl (fun s row =>
    if row.length = 0 then s          -- row[GroundColumn.ID] raises IndexError
    else
      let ground_elem_id := parse_int (some (row.getD 0 "")) 0
      if ground_elem_id = 0 then s    -- continue
      else if row.length < 4 then s   -- row[GroundColumn.TYPE] raises IndexError
      else
        let ground_type := parse_int (some (row.getD 3 "")) 0
        if ground_type ≠ 0 then insert ground_elem_id s else s) ∅

/-- Embeds `get_valid_unit_ids`: dict-style rows of the `_unit.csv`
file; with `active_only` the rows whose type parses to 0 are skipped;
every remaining row with a non-zero parsed id contributes it. -/
def get_valid_unit_ids (rows : List UnitRow) (active_only : Bool) : Finset Int :=
  rows.foldl (fun s row =>
    let uid := parse_int row.uid 0
    if active_only ∧ parse_int row.utype 0 = 0 then s
    else if uid ≠ 0 then insert uid s else s) ∅

/-! ## auditing/validator.py : evaluate_unit_consistency -/

/-- One coordinate pair check of `evaluate_unit_consistency`: parse with
default -1 and flag the pair unless it lies within the map bounds. -/
def coord_pair_issue (px py : Option String) : Nat :=
  let x := parse_int px (-1)
  let y := parse_int py (-1)
  if MIN_X ≤ x ∧ x ≤ MAX_X ∧ MIN_Y ≤ y ∧ y ≤ MAX_Y then 0 else 1

/-- The four coordinate checks (x,y), (tx,ty), (ax,ay), (ptx,pty). -/
def unit_coord_issues (row : UnitRow) : Nat :=
  coord_pair_issue row.x row.y + coord_pair_issue row.tx row.ty +
    coord_pair_issue row.ax row.ay + coord_pair_issue row.ptx row.pty

/-- The squad-cell of slot `i` as read through `row.get(f"sqd.u{i}")`. -/
def sqd_u_cell (row : UnitRow) (i : Nat) : Option String :=
  row.sqd_u.getD i none

/-- The quantity cell of slot `i` as read through
`row.get(f"sqd.num{i}")`. -/
def sqd_num_cell (row : UnitRow) (i : Nat) : Option String :=
  row.sqd_num.getD i none

/-- One slot of the squad loop of `evaluate_unit_consistency`: a
non-zero id absent from the valid element set is one issue; a non-zero
quantity with a zero id is a Ghost Squad, one issue, and in fix mode the
quantity cell is rewritten to "0" and the repair counted.  The
accumulator carries (issues so far, fixes so far, current row). -/
def unit_slot_step (valid_elem_ids : Finset Int) (fix_ghosts : Bool)
    (acc : Nat × Nat × UnitRow) (i : Nat) : Nat × Nat × UnitRow :=
  let issues := acc.1
  let fixed := acc.2.1
  let row := acc.2.2
  let sqd_id_val := parse_int (sqd_u_cell row i) 0
  let squad_quantity := parse_int (sqd_num_cell row i) 0
  let issues := issues + (if sqd_id_val ≠ 0 ∧ sqd_id_val ∉ valid_elem_ids then 1 else 0)
  if squad_quantity ≠ 0 ∧ sqd_id_val = 0 then
    if fix_ghosts then
      (issues + 1, fixed + 1, { row with sqd_num := row.sqd_num.set i (some "0") })
    else (issues + 1, fixed, row)
  else (issues, fixed, row)

/-- The full squad loop over slots 0..31. -/
def unit_squad_scan (valid_elem_ids : Finset Int) (fix_ghosts : Bool)
    (row : UnitRow) : Nat × Nat × UnitRow :=
  (List.range MAX_SQUAD_SLOTS).foldl (unit_slot_step valid_elem_ids fix_ghosts) (0, 0, row)

/-- The Attachment/HQ check of `evaluate_unit_consistency`: a unit whose
`hhq` equals its own id is flagged when its own `hq` type is neither 0
nor 1; a non-zero `hhq` absent from the valid unit-id set is flagged. -/
def unit_hq_issues (valid_unit_ids : Finset Int) (unit_id : Int) (row : UnitRow) : Nat :=
  let unit_hhq := parse_int row.hhq 0
  let selfIssue :=
    if unit_hhq = unit_id then
      let unit_hq_type := parse_int row.hq 0
      if unit_hq_type ≠ 0 ∧ unit_hq_type ≠ 1 then 1 else 0
    else 0
  let danglingIssue := if unit_hhq ≠ 0 ∧ unit_hhq ∉ valid_unit_ids then 1 else 0
  selfIssue + danglingIssue

/-- The Excess Delay check. -/
def unit_delay_issue (row : UnitRow) : Nat :=
  if parse_int row.delay 0 > MAX_GAME_TURNS then 1 else 0

/-- Loop state of `evaluate_unit_consistency`: issue count, ghost-fix
count, the set of unit ids already seen, and the rows written to the
temporary file (meaningful only in fix mode). -/
structure UnitEvalState : Type where
  issues : Nat
  fixed : Nat
  seen : Finset Int
  out : List UnitRow

/-- One row of the main loop of `evaluate_unit_consistency`.  An
inactive row (id or type parsing to 0) under `active_only` is written
through verbatim in fix mode and otherwise skipped.  An active row goes
through duplicate-id, coordinate, squad (with optional ghost repair),
HQ and delay checks, and the possibly repaired row is written in fix
mode. -/
def unit_row_step (valid_elem_ids valid_unit_ids : Finset Int)
    (active_only fix_ghosts : Bool) (st : UnitEvalState) (row : UnitRow) : UnitEvalState :=
  let unit_id := parse_int row.uid 0
  let unit_type := parse_int row.utype 0
  if active_only ∧ (unit_id = 0 ∨ unit_type = 0) then
    { st with out := if fix_ghosts then st.out ++ [row] else st.out }
  else
    let dup := if unit_id ∈ st.seen then 1 else 0
    let seen2 := insert unit_id st.seen
    let coords := unit_coord_issues row
    let scanned := unit_squad_scan valid_elem_ids fix_ghosts row
    let row2 := scanned.2.2
    let hq := unit_hq_issues valid_unit_ids unit_id row2
    let dl := unit_delay_issue row2
    { issues := st.issues + dup + coords + scanned.1 + hq + dl
      fixed := st.fixed + scanned.2.1
      seen := seen2
      out := if fix_ghosts then st.out ++ [row2] else st.out }

/-- The full run of `evaluate_unit_consistency` over a ground table
(list-style rows) and a unit table (dict-style rows): the valid element
ids come from the ground file, the valid unit ids from the same unit
file with `active_only=False` (the call site in the source passes no
flag). -/
def unit_eval_run (ground : List (List String)) (rows : List UnitRow)
    (active_only fix_ghosts : Bool) : UnitEvalState :=
  let valid_elem_ids := get_valid_ground_elem_ids ground
  let valid_unit_ids := get_valid_unit_ids rows false
  rows.foldl (unit_row_step valid_elem_ids valid_unit_ids active_only fix_ghosts)
    ⟨0, 0, ∅, []⟩

/-- The issue count returned by `evaluate_unit_consistency` (the
sentinel -1 path for path-level I/O failure is outside this pure
model). -/
def evaluate_unit_consistency (ground : List (List String)) (rows : List UnitRow)
    (active_only fix_ghosts : Bool) : Int :=
  (unit_eval_run ground rows active_only fix_ghosts).issues

/-- The contents of the unit file after one `evaluate_unit_consistency`
call: in fix mode with at least one repair the temporary file replaces
the original (`os.replace`), otherwise the temporary file is removed and
the original is untouched. -/
def unit_file_after (ground : List (List String)) (rows : List UnitRow)
    (active_only fix_ghosts : Bool) : List UnitRow :=
  let st := unit_eval_run ground rows active_only fix_ghosts
  if fix_ghosts ∧ 0 < st.fixed then st.out else rows

/-! ## Concrete tables for the spec scenarios on the unit validator -/

/-- A well-formed active Unit row with in-bounds coordinates, no HQ
reference, no delay and empty squad slots; scenario rows adjust the
fields under test. -/
def unitRowBase : UnitRow where
  uid := some "1"
  uname := some "U"
  utype := some "1"
  x := some "10"
  y := some "10"
  tx := some "10"
  ty := some "10"
  ax := some "10"
  ay := some "10"
  ptx := some "10"
  pty := some "10"
  hq := some "0"
  hhq := some "0"
  delay := some "0"
  sqd_u := []
  sqd_num := []
  rest := []

/-- The `_ground.csv` of the spec scenario: active Elements 105 and 106
(id in column 0, type in column 3). -/
def c1_ground : List (List String) :=
  [["105", "E105", "105", "1"], ["106", "E106", "106", "1"]]

/-- The scenario Unit: slot0 = (105, qty 10), slot1 = (106, qty 5). -/
def c1_unit_row : UnitRow :=
  { unitRowBase with sqd_u := [some "105", some "106"], sqd_num := [some "10", some "5"] }

/-- The scenario Unit with slot0 quantity set to 0, identifier kept. -/
def c1_unit_row_zeroqty : UnitRow :=
  { unitRowBase with sqd_u := [some "105", some "106"], sqd_num := [some "0", some "5"] }

set_option maxRecDepth 20000 in
/-- Claim C1 counterexample: in the spec scenario, zeroing slot0's
quantity while keeping identifier 105 yields 0 defects, not the 1
ghost-slot defect the claim asserts — the validator has no check for
the direction (zero quantity, non-zero identifier). -/
theorem c1_counterexample :
    evaluate_unit_consistency c1_ground [c1_unit_row_zeroqty] true false = 0 ∧
      evaluate_unit_consistency c1_ground [c1_unit_row_zeroqty] true false ≠ 1 := by
  constructor <;> decide

set_option maxRecDepth 20000 in
/-- Claim C1 (amended): the validator checks slots in one direction
only.  For every slot, the issues added are exactly one for a non-zero
identifier absent from the Element set plus one for a non-zero quantity
with a zero identifier; a slot with zero quantity and a non-zero valid
identifier is not reported.  In the spec scenario both the original
Unit and the Unit with slot0's quantity zeroed validate to 0. -/
theorem c1_ghost_one_direction :
    (∀ (valid_elem_ids : Finset Int) (fix_ghosts : Bool) (acc : Nat × Nat × UnitRow) (i : Nat),
      (unit_slot_step valid_elem_ids fix_ghosts acc i).1 =
        acc.1 +
          (if parse_int (sqd_u_cell acc.2.2 i) 0 ≠ 0 ∧
              parse_int (sqd_u_cell acc.2.2 i) 0 ∉ valid_elem_ids then 1 else 0) +
          (if parse_int (sqd_num_cell acc.2.2 i) 0 ≠ 0 ∧
              parse_int (sqd_u_cell acc.2.2 i) 0 = 0 then 1 else 0)) ∧
    evaluate_unit_consistency c1_ground [c1_unit_row] true false = 0 ∧
    evaluate_unit_consistency c1_ground [c1_unit_row_zeroqty] true false = 0 := by
  refine ⟨?_, by decide, by decide⟩
  intro valid fix acc i
  unfold unit_slot_step
  dsimp only
  split
  · split <;> rfl
  · rfl

/-- The C9 scenario unit table: Unit 1 is active and reports to Unit 2;
Unit 2 exists in the file but is inactive (type 0). -/
def c9_unit_rows : List UnitRow :=
  [{ unitRowBase with uid := some "1", hhq := some "2" },
   { unitRowBase with uid := some "2", utype := some "0" }]

set_option maxRecDepth 20000 in
/-- Claim C9 counterexample: a Unit reporting to an inactive Unit
(id 2 present in the file with type 0) is not flagged — the validator
builds its valid-unit set with `active_only=False`, so inactive ids
count as valid HQ targets and the audit returns 0 defects where the
claim requires one. -/
theorem c9_counterexample :
    evaluate_unit_consistency [] c9_unit_rows true false = 0 := by
  decide

/-- Membership in the valid-unit set built with `active_only=False`:
exactly the non-zero parsed ids of the file's rows, active or not. -/
theorem mem_get_valid_unit_ids (rows : List UnitRow) (x : Int) :
    x ∈ get_valid_unit_ids rows false ↔
      x ≠ 0 ∧ ∃ row ∈ rows, parse_int row.uid 0 = x := by
  suffices main : ∀ (l : List UnitRow) (s : Finset Int),
      (x ∈ l.foldl (fun s row =>
          let uid := parse_int row.uid 0
          if (false : Bool) ∧ parse_int row.utype 0 = 0 then s
          else if uid ≠ 0 then insert uid s else s) s ↔
        x ∈ s ∨ (x ≠ 0 ∧ ∃ row ∈ l, parse_int row.uid 0 = x)) by
    have h := main rows ∅
    simp only [Finset.not_mem_empty, false_or] at h
    exact h
  intro l
  induction l with
  | nil => simp
  | cons r rest ih =>
    intro s
    simp only [List.foldl_cons]
    by_cases h0 : parse_int r.uid 0 = 0
    · rw [show (if false = true ∧ parse_int r.utype 0 = 0 then s
          else if parse_int r.uid 0 ≠ 0 then insert (parse_int r.uid 0) s else s) = s by
        simp [h0]]
      rw [ih s]
      constructor
      · rintro (hs | hrest)
        · exact Or.inl hs
        · obtain ⟨hx, row, hrow, hid⟩ := hrest
          exact Or.inr ⟨hx, row, List.mem_cons_of_mem r hrow, hid⟩
      · rintro (hs | ⟨hx, row, hrow, hid⟩)
        · exact Or.inl hs
        · rcases List.mem_cons.mp hrow with hr | hr
          · subst hr
            exact absurd (hid ▸ h0) (by simpa using hx)
          · exact Or.inr ⟨hx, row, hr, hid⟩
    · rw [show (if false = true ∧ parse_int r.utype 0 = 0 then s
          else if parse_int r.uid 0 ≠ 0 then insert (parse_int r.uid 0) s else s)
            = insert (parse_int r.uid 0) s by
        simp [h0]]
      rw [ih (insert (parse_int r.uid 0) s)]
      constructor
      · rintro (hs | hrest)
        · rcases Finset.mem_insert.mp hs with hx | hx
          · exact Or.inr ⟨hx ▸ h0, r, List.mem_cons_self r rest, hx.symm⟩
          · exact Or.inl hx
        · obtain ⟨hx, row, hrow, hid⟩ := hrest
          exact Or.inr ⟨hx, row, List.mem_cons_of_mem r hrow, hid⟩
      · rintro (hs | ⟨hx, row, hrow, hid⟩)
        · exact Or.inl (Finset.mem_insert_of_mem hs)
        · rcases List.mem_cons.mp hrow with hr | hr
          · subst hr
            exact Or.inl (Finset.mem_insert.mpr (Or.inl hid.symm))
          · exact Or.inr ⟨hx, row, hr, hid⟩

set_option maxRecDepth 20000 in
/-- Claim C9 (amended): for every active Unit row, the HQ check flags a
self-reference exactly when the unit's own hq-type is neither 0 nor 1,
and flags a non-zero reports_to exactly when it names an id carried by
no row of the unit file (rows with a non-zero id count, whether active
or inactive, since the valid-unit set is built with
`active_only=False`).  A reports_to naming an inactive Unit whose id
appears in the file is therefore not flagged: the C9 scenario audits to
0 defects. -/
theorem c9_hq_check :
    (∀ (valid_unit_ids : Finset Int) (unit_id : Int) (row : UnitRow),
      unit_hq_issues valid_unit_ids unit_id row =
        (if parse_int row.hhq 0 = unit_id ∧ parse_int row.hq 0 ≠ 0 ∧
            parse_int row.hq 0 ≠ 1 then 1 else 0) +
        (if parse_int row.hhq 0 ≠ 0 ∧ parse_int row.hhq 0 ∉ valid_unit_ids
          then 1 else 0)) ∧
    (∀ (rows : List UnitRow) (x : Int),
      x ∈ get_valid_unit_ids rows false ↔
        x ≠ 0 ∧ ∃ row ∈ rows, parse_int row.uid 0 = x) ∧
    evaluate_unit_consistency [] c9_unit_rows true false = 0 := by
  refine ⟨?_, mem_get_valid_unit_ids, by decide⟩
  intro valid uid row
  unfold unit_hq_issues
  dsimp only
  congr 1
  by_cases hself : parse_int row.hhq 0 = uid
  · simp [hself]
  · simp [hself]

/-! ## Ghost-squad repair idempotence (claim C5) -/

/-- Slot `i` of the row is a Ghost Squad: its quantity parses non-zero
while its identifier parses to zero. -/
def GhostAt (row : UnitRow) (i : Nat) : Prop :=
  parse_int (sqd_num_cell row i) 0 ≠ 0 ∧ parse_int (sqd_u_cell row i) 0 = 0

/-- The row that one `evaluate_unit_consistency` fix-mode pass writes
for a given source row: inactive rows under `active_only` pass through
verbatim, active rows get their ghost quantities zeroed by the squad
scan. -/
def unit_row_written (valid_elem_ids : Finset Int) (active_only : Bool) (row : UnitRow) : UnitRow :=
  if active_only ∧ (parse_int row.uid 0 = 0 ∨ parse_int row.utype 0 = 0) then row
  else (unit_squad_scan valid_elem_ids true row).2.2

/-- The number of ghost repairs the fix-mode pass performs on a row. -/
def unit_row_fixcount (valid_elem_ids : Finset Int) (active_only : Bool) (row : UnitRow) : Nat :=
  if active_only ∧ (parse_int row.uid 0 = 0 ∨ parse_int row.utype 0 = 0) then 0
  else (unit_squad_scan valid_elem_ids true row).2.1

theorem unit_slot_step_row (ve : Finset Int) (fix : Bool) (acc : Nat × Nat × UnitRow) (i : Nat) :
    ∃ l, (unit_slot_step ve fix acc i).2.2 = { acc.2.2 with sqd_num := l } := by
  unfold unit_slot_step
  dsimp only
  split
  · split
    · exact ⟨acc.2.2.sqd_num.set i (some "0"), rfl⟩
    · exact ⟨acc.2.2.sqd_num, rfl⟩
  · exact ⟨acc.2.2.sqd_num, rfl⟩

theorem unit_slot_fold_row (ve : Finset Int) (fix : Bool) (L : List Nat) :
    ∀ acc : Nat × Nat × UnitRow,
      ∃ l, (L.foldl (unit_slot_step ve fix) acc).2.2 = { acc.2.2 with sqd_num := l } := by
  induction L with
  | nil => exact fun acc => ⟨acc.2.2.sqd_num, rfl⟩
  | cons i rest ih =>
    intro acc
    obtain ⟨l1, h1⟩ := unit_slot_step_row ve fix acc i
    obtain ⟨l2, h2⟩ := ih (unit_slot_step ve fix acc i)
    refine ⟨l2, ?_⟩
    rw [List.foldl_cons, h2, h1]

theorem unit_squad_scan_row (ve : Finset Int) (fix : Bool) (row : UnitRow) :
    ∃ l, (unit_squad_scan ve fix row).2.2 = { row with sqd_num := l } := by
  unfold unit_squad_scan
  exact unit_slot_fold_row ve fix (List.range MAX_SQUAD_SLOTS) (0, 0, row)

theorem sqd_num_cell_set_ne (row : UnitRow) (i j : Nat) (v : Option String) (h : i ≠ j) :
    sqd_num_cell { row with sqd_num := row.sqd_num.set i v } j = sqd_num_cell row j := by
  simp only [sqd_num_cell, List.getD_eq_getD_get?, List.get?_set_ne _ _ h]

theorem sqd_num_cell_set_eq (row : UnitRow) (i : Nat) (v : Option String)
    (h : i < row.sqd_num.length) :
    sqd_num_cell { row with sqd_num := row.sqd_num.set i v } i = v := by
  simp only [sqd_num_cell, List.getD_eq_getD_get?, List.get?_set_eq_of_lt v h,
    Option.getD_some]

theorem lt_length_of_num_cell_parses (row : UnitRow) (i : Nat)
    (h : parse_int (sqd_num_cell row i) 0 ≠ 0) : i < row.sqd_num.length := by
  by_contra hli
  have hnone : sqd_num_cell row i = none := by
    simp only [sqd_num_cell, List.getD_eq_getD_get?]
    rw [List.get?_eq_none.mpr (by omega)]
    rfl
  rw [hnone] at h
  exact h rfl

theorem unit_slot_step_no_ghost (ve : Finset Int) (fix : Bool) (acc : Nat × Nat × UnitRow)
    (i : Nat) (h : ¬ GhostAt acc.2.2 i) :
    (unit_slot_step ve fix acc i).2.1 = acc.2.1 ∧ (unit_slot_step ve fix acc i).2.2 = acc.2.2 := by
  have h' : ¬ (parse_int (sqd_num_cell acc.2.2 i) 0 ≠ 0 ∧
      parse_int (sqd_u_cell acc.2.2 i) 0 = 0) := h
  unfold unit_slot_step
  dsimp only
  rw [if_neg h']
  exact ⟨rfl, rfl⟩

theorem unit_slot_step_u_cell (ve : Finset Int) (fix : Bool) (acc : Nat × Nat × UnitRow)
    (i j : Nat) : sqd_u_cell (unit_slot_step ve fix acc i).2.2 j = sqd_u_cell acc.2.2 j := by
  obtain ⟨l, hl⟩ := unit_slot_step_row ve fix acc i
  rw [hl]
  rfl

theorem unit_slot_step_num_cell_ne (ve : Finset Int) (fix : Bool) (acc : Nat × Nat × UnitRow)
    (i j : Nat) (h : i ≠ j) :
    sqd_num_cell (unit_slot_step ve fix acc i).2.2 j = sqd_num_cell acc.2.2 j := by
  unfold unit_slot_step
  dsimp only
  split
  · split
    · exact sqd_num_cell_set_ne acc.2.2 i j (some "0") h
    · rfl
  · rfl

theorem unit_slot_step_fix_no_ghost (ve : Finset Int) (acc : Nat × Nat × UnitRow) (i : Nat) :
    ¬ GhostAt (unit_slot_step ve true acc i).2.2 i := by
  by_cases hg : GhostAt acc.2.2 i
  · have hlen : i < acc.2.2.sqd_num.length := lt_length_of_num_cell_parses acc.2.2 i hg.1
    have hg' : parse_int (sqd_num_cell acc.2.2 i) 0 ≠ 0 ∧
        parse_int (sqd_u_cell acc.2.2 i) 0 = 0 := hg
    unfold unit_slot_step
    dsimp only
    rw [if_pos hg', if_pos rfl]
    intro hc
    have hcell := sqd_num_cell_set_eq acc.2.2 i (some "0") hlen
    have hc1 := hc.1
    rw [hcell] at hc1
    exact hc1 rfl
  · rw [(unit_slot_step_no_ghost ve true acc i hg).2]
    exact hg

theorem unit_slot_step_preserves_no_ghost (ve : Finset Int) (fix : Bool)
    (acc : Nat × Nat × UnitRow) (i j : Nat) (hij : i ≠ j) (h : ¬ GhostAt acc.2.2 j) :
    ¬ GhostAt (unit_slot_step ve fix acc i).2.2 j := by
  intro hc
  apply h
  rw [GhostAt, ← unit_slot_step_num_cell_ne ve fix acc i j hij,
    ← unit_slot_step_u_cell ve fix acc i j]
  exact hc

theorem unit_slot_fold_no_ghost (ve : Finset Int) (fix : Bool) (L : List Nat) :
    ∀ acc : Nat × Nat × UnitRow, (∀ i ∈ L, ¬ GhostAt acc.2.2 i) →
      (L.foldl (unit_slot_step ve fix) acc).2.1 = acc.2.1 ∧
        (L.foldl (unit_slot_step ve fix) acc).2.2 = acc.2.2 := by
  induction L with
  | nil => exact fun acc _ => ⟨rfl, rfl⟩
  | cons i rest ih =>
    intro acc h
    have hstep := unit_slot_step_no_ghost ve fix acc i (h i (List.mem_cons_self i rest))
    have hrest : ∀ j ∈ rest, ¬ GhostAt (unit_slot_step ve fix acc i).2.2 j := by
      intro j hj
      rw [hstep.2]
      exact h j (List.mem_cons_of_mem i hj)
    have hfold := ih (unit_slot_step ve fix acc i) hrest
    rw [List.foldl_cons]
    exact ⟨hfold.1.trans hstep.1, hfold.2.trans hstep.2⟩

theorem unit_range_fold_no_ghost (ve : Finset Int) :
    ∀ (n : Nat) (acc : Nat × Nat × UnitRow), ∀ j < n,
      ¬ GhostAt (((List.range n).foldl (unit_slot_step ve true) acc)).2.2 j := by
  intro n
  induction n with
  | zero => intro acc j hj; omega
  | succ n ih =>
    intro acc j hj
    rw [List.range_succ, List.foldl_append, List.foldl_cons, List.foldl_nil]
    by_cases hjn : j = n
    · subst hjn
      exact unit_slot_step_fix_no_ghost ve _ j
    · have hjlt : j < n := by omega
      exact unit_slot_step_preserves_no_ghost ve true _ n j (fun hc => hjn hc.symm)
        (ih acc j hjlt)

set_option maxRecDepth 4000 in
theorem unit_squad_scan_no_ghost (ve : Finset Int) (row : UnitRow) :
    ∀ j < MAX_SQUAD_SLOTS, ¬ GhostAt (unit_squad_scan ve true row).2.2 j := by
  unfold unit_squad_scan
  exact unit_range_fold_no_ghost ve MAX_SQUAD_SLOTS (0, 0, row)

set_option maxRecDepth 4000 in
theorem unit_squad_scan_second_run (ve : Finset Int) (row : UnitRow) :
    (unit_squad_scan ve true ((unit_squad_scan ve true row).2.2)).2.1 = 0 ∧
      (unit_squad_scan ve true ((unit_squad_scan ve true row).2.2)).2.2 =
        (unit_squad_scan ve true row).2.2 := by
  have hng0 := unit_squad_scan_no_ghost ve row
  generalize hgen : (unit_squad_scan ve true row).2.2 = r1 at hng0 ⊢
  have hng : ∀ i ∈ List.range MAX_SQUAD_SLOTS, ¬ GhostAt r1 i :=
    fun i hi => hng0 i (List.mem_range.mp hi)
  have h := unit_slot_fold_no_ghost ve true (List.range MAX_SQUAD_SLOTS) (0, 0, r1) hng
  unfold unit_squad_scan
  exact h

theorem unit_row_step_out_fixed (ve vu : Finset Int) (ao : Bool) (st : UnitEvalState)
    (row : UnitRow) :
    (unit_row_step ve vu ao true st row).out = st.out ++ [unit_row_written ve ao row] ∧
      (unit_row_step ve vu ao true st row).fixed = st.fixed + unit_row_fixcount ve ao row := by
  unfold unit_row_step unit_row_written unit_row_fixcount
  dsimp only
  by_cases hskip : (ao = true) ∧ (parse_int row.uid 0 = 0 ∨ parse_int row.utype 0 = 0)
  · rw [if_pos hskip, if_pos hskip, if_pos hskip]
    exact ⟨by simp, by simp⟩
  · rw [if_neg hskip, if_neg hskip, if_neg hskip]
    exact ⟨by simp, rfl⟩

theorem unit_fold_out_fixed (ve vu : Finset Int) (ao : Bool) (rows : List UnitRow) :
    ∀ st : UnitEvalState,
      (rows.foldl (unit_row_step ve vu ao true) st).out =
          st.out ++ rows.map (unit_row_written ve ao) ∧
        (rows.foldl (unit_row_step ve vu ao true) st).fixed =
          st.fixed + (rows.map (unit_row_fixcount ve ao)).sum := by
  induction rows with
  | nil => intro st; simp
  | cons r rest ih =>
    intro st
    rw [List.foldl_cons]
    have hstep := unit_row_step_out_fixed ve vu ao st r
    have hfold := ih (unit_row_step ve vu ao true st r)
    constructor
    · rw [hfold.1, hstep.1, List.map_cons, List.append_assoc]
      rfl
    · rw [hfold.2, hstep.2, List.map_cons, List.sum_cons]
      omega

theorem unit_row_written_skip_iff (ve : Finset Int) (ao : Bool) (row : UnitRow) :
    (ao = true ∧ (parse_int (unit_row_written ve ao row).uid 0 = 0 ∨
        parse_int (unit_row_written ve ao row).utype 0 = 0)) ↔
      (ao = true ∧ (parse_int row.uid 0 = 0 ∨ parse_int row.utype 0 = 0)) := by
  unfold unit_row_written
  by_cases hskip : (ao = true) ∧ (parse_int row.uid 0 = 0 ∨ parse_int row.utype 0 = 0)
  · rw [if_pos hskip]
  · rw [if_neg hskip]
    obtain ⟨l, hl⟩ := unit_squad_scan_row ve true row
    rw [hl]

theorem unit_row_written_idem (ve : Finset Int) (ao : Bool) (row : UnitRow) :
    unit_row_written ve ao (unit_row_written ve ao row) = unit_row_written ve ao row ∧
      unit_row_fixcount ve ao (unit_row_written ve ao row) = 0 := by
  by_cases hskip : (ao = true) ∧ (parse_int row.uid 0 = 0 ∨ parse_int row.utype 0 = 0)
  · have hrow : unit_row_written ve ao row = row := by
      unfold unit_row_written
      rw [if_pos hskip]
    rw [hrow]
    constructor
    · exact hrow
    · unfold unit_row_fixcount
      rw [if_pos hskip]
  · have hskip2 : ¬ (ao = true ∧ (parse_int (unit_row_written ve ao row).uid 0 = 0 ∨
        parse_int (unit_row_written ve ao row).utype 0 = 0)) := by
      rw [unit_row_written_skip_iff]
      exact hskip
    have hrow : unit_row_written ve ao row = (unit_squad_scan ve true row).2.2 := by
      unfold unit_row_written
      rw [if_neg hskip]
    constructor
    · rw [unit_row_written, if_neg hskip2, hrow, (unit_squad_scan_second_run ve row).2]
    · rw [unit_row_fixcount, if_neg hskip2, hrow, (unit_squad_scan_second_run ve row).1]

/-- The fix pass writes exactly one row per source row, and each written
row differs from its source at most in the `sqd.num` columns. -/
theorem unit_row_written_frame (ve : Finset Int) (ao : Bool) (row : UnitRow) :
    ∃ l, unit_row_written ve ao row = { row with sqd_num := l } := by
  unfold unit_row_written
  by_cases hskip : (ao = true) ∧ (parse_int row.uid 0 = 0 ∨ parse_int row.utype 0 = 0)
  · rw [if_pos hskip]
    exact ⟨row.sqd_num, rfl⟩
  · rw [if_neg hskip]
    exact unit_squad_scan_row ve true row

theorem unit_eval_run_out (ground : List (List String)) (rows : List UnitRow) (ao : Bool) :
    (unit_eval_run ground rows ao true).out =
        rows.map (unit_row_written (get_valid_ground_elem_ids ground) ao) ∧
      (unit_eval_run ground rows ao true).fixed =
        (rows.map (unit_row_fixcount (get_valid_ground_elem_ids ground) ao)).sum := by
  have h := unit_fold_out_fixed (get_valid_ground_elem_ids ground)
    (get_valid_unit_ids rows false) ao rows ⟨0, 0, ∅, []⟩
  simpa [unit_eval_run] using h

/-- Claim C5: ghost-squad repair is idempotent.  For every ground table,
unit table and `active_only` flag, running the fix-mode pass on the file
produced by a first fix-mode pass changes nothing: the resulting file
equals the first pass's file, the second pass performs zero repairs, and
every written row of a pass differs from its source row at most in its
`sqd.num` quantity columns (all other columns, and the row order, are
copied through). -/
theorem unit_file_after_of_fixed_zero (ground : List (List String)) (rows : List UnitRow)
    (ao : Bool) (h : (unit_eval_run ground rows ao true).fixed = 0) :
    unit_file_after ground rows ao true = rows := by
  simp only [unit_file_after]
  rw [if_neg (by simp [h])]

theorem unit_file_after_of_fixed_pos (ground : List (List String)) (rows : List UnitRow)
    (ao : Bool) (h : (unit_eval_run ground rows ao true).fixed ≠ 0) :
    unit_file_after ground rows ao true = (unit_eval_run ground rows ao true).out := by
  simp only [unit_file_after]
  rw [if_pos (And.intro (by trivial) (by omega))]

theorem c5_repair_idempotent (ground : List (List String)) (rows : List UnitRow)
    (active_only : Bool) :
    unit_file_after ground (unit_file_after ground rows active_only true) active_only true =
        unit_file_after ground rows active_only true ∧
      (unit_eval_run ground (unit_file_after ground rows active_only true)
          active_only true).fixed = 0 ∧
      (∀ row : UnitRow, ∃ l,
        unit_row_written (get_valid_ground_elem_ids ground) active_only row =
          { row with sqd_num := l }) := by
  have hframe : ∀ row : UnitRow, ∃ l,
      unit_row_written (get_valid_ground_elem_ids ground) active_only row =
        { row with sqd_num := l } :=
    fun row => unit_row_written_frame _ active_only row
  have hrun1 := unit_eval_run_out ground rows active_only
  have hfix2 : (unit_eval_run ground (unit_file_after ground rows active_only true)
      active_only true).fixed = 0 := by
    by_cases hfix : (unit_eval_run ground rows active_only true).fixed = 0
    · rw [unit_file_after_of_fixed_zero ground rows active_only hfix]
      exact hfix
    · have hfile1 : unit_file_after ground rows active_only true =
          rows.map (unit_row_written (get_valid_ground_elem_ids ground) active_only) :=
        (unit_file_after_of_fixed_pos ground rows active_only hfix).trans hrun1.1
      have h2 := unit_eval_run_out ground
        (unit_file_after ground rows active_only true) active_only
      rw [h2.2, hfile1, List.map_map]
      apply List.sum_eq_zero
      intro x hx
      obtain ⟨row, _, hrow⟩ := List.mem_map.mp hx
      rw [← hrow]
      exact (unit_row_written_idem _ active_only row).2
  exact ⟨unit_file_after_of_fixed_zero ground _ active_only hfix2, hfix2, hframe⟩

/-! ## core/find_orphaned_obs.py -/

/-- The nationality filter test used by the orphan and chain scans:
`nat_filter is not None and value not in nat_filter`. -/
def nat_filtered_out (natFilter : Option (Finset Int)) (n : Int) : Bool :=
  match natFilter with
  | some f => decide (n ∉ f)
  | none => false

/-- One hop of the upgrade chain: `ob_id_upgrade.get(curr, 0)`. -/
def upg_next (m : List (Int × Int)) (x : Int) : Int :=
  (dictGet m x).getD 0

/-- The `while` loop of `_trace_unit_references`, with explicit fuel:
starting from `curr`, stop on reaching 0 or an id already marked
referenced, otherwise mark the id and follow its upgrade edge.  The
`Bool` is `true` when the loop stopped through one of its own stop
conditions and `false` when the fuel ran out (which the termination
theorems rule out for the fuel the wrappers pass). -/
def trace_walk (m : List (Int × Int)) : Nat → Finset Int → Int → Finset Int × Bool
  | 0, s, _ => (s, false)
  | fuel + 1, s, curr =>
    if curr = 0 then (s, true)
    else if curr ∈ s then (s, true)
    else trace_walk m fuel (insert curr s) (upg_next m curr)

/-- A dict-style row of `_unit.csv` as read by `_trace_unit_references`
(only the cells the function reads). -/
structure USrcRow : Type where
  nat : Option String
  uid : Option String
  uname : Option String
  utype : Option String
  deriving Repr, DecidableEq

/-- A dict-style row of `_ob.csv` as read by `_parse_ob_data` and
`generate_ob_chains` (only the cells those functions read). -/
structure ObSrcRow : Type where
  nat : Option String
  rid : Option String
  rtype : Option String
  upgrade : Option String
  name : Option String
  suffix : Option String
  deriving Repr, DecidableEq

/-- The structured data `_parse_ob_data` returns. -/
structure ObParseResult : Type where
  all_obs : Finset Int
  active_obs : Finset Int
  ob_id_to_name : List (Int × String)
  ob_id_upgrade : List (Int × Int)

/-- Embeds `_parse_ob_data`: nationality-filtered rows with a non-zero
id contribute to `all_obs` and the name dict, and — when active — to
`active_obs` and (for a non-zero upgrade pointer) the upgrade dict. -/
def parse_ob_data (rows : List ObSrcRow) (natFilter : Option (Finset Int)) : ObParseResult :=
  rows.foldl (fun acc row =>
    let ob_nat := parse_int row.nat 0
    if nat_filtered_out natFilter ob_nat then acc
    else
      let ob_id := parse_int row.rid 0
      if ob_id = 0 then acc
      else
        let acc2 := { acc with
          all_obs := insert ob_id acc.all_obs
          ob_id_to_name := dictInsert acc.ob_id_to_name ob_id
            (parse_str row.name "" ++ " " ++ parse_str row.suffix "") }
        if parse_int row.rtype 0 ≠ 0 then
          let acc3 := { acc2 with active_obs := insert ob_id acc2.active_obs }
          let upgrade_id := parse_int row.upgrade 0
          if upgrade_id ≠ 0 then
            { acc3 with ob_id_upgrade := dictInsert acc3.ob_id_upgrade ob_id upgrade_id }
          else acc3
        else acc2) ⟨∅, ∅, [], []⟩

/-- Embeds `_trace_unit_references` (the unit-record bookkeeping that
feeds the console report is dropped; the returned set is what
`find_orphaned_obs` consumes): every nationality-passing row with
non-zero id and type starts an upgrade-chain walk from its type. -/
def trace_unit_references (upg : List (Int × Int)) (natFilter : Option (Finset Int))
    (rows : List USrcRow) : Finset Int :=
  rows.foldl (fun s row =>
    let u_nat := parse_int row.nat 0
    if nat_filtered_out natFilter u_nat then s
    else
      let u_id := parse_int row.uid 0
      let u_type := parse_int row.utype 0
      if u_id ≠ 0 ∧ u_type ≠ 0 then (trace_walk upg (upg.length + 2) s u_type).1
      else s) ∅

/-- The two set differences computed by `find_orphaned_obs`
(lines 155-156 of the source): the returned orphan set and the
invalid-reference set that feeds the report. -/
def find_orphaned_pair (obRows : List ObSrcRow) (unitRows : List USrcRow)
    (natFilter : Option (Finset Int)) : Finset Int × Finset Int :=
  let p := parse_ob_data obRows natFilter
  let obs_ref := trace_unit_references p.ob_id_upgrade natFilter unitRows
  (p.active_obs \ obs_ref, obs_ref \ p.active_obs)

/-- Embeds `find_orphaned_obs`: a missing `_ob` or `_unit` file (`none`)
returns the empty set before anything is parsed; otherwise the
nationality codes are standardised to a set and the orphan set is
computed. -/
def find_orphaned_obs (obFile : Option (List ObSrcRow)) (unitFile : Option (List USrcRow))
    (nat_codes : Option (List Int)) : Finset Int :=
  match obFile, unitFile with
  | some obRows, some unitRows =>
    let natFilter : Option (Finset Int) := nat_codes.map List.toFinset
    (find_orphaned_pair obRows unitRows natFilter).1
  | _, _ => ∅

/-- Embeds `is_ob_orphaned`: the nationality argument is converted to a
sorted tuple — `None` becomes the EMPTY tuple, which downstream is a
(degenerate) empty nationality filter, not the absence of a filter —
and the query is a membership test against the cached orphan set. -/
def is_ob_orphaned (obFile : Option (List ObSrcRow)) (unitFile : Option (List USrcRow))
    (ob_id_to_check : Int) (nation_id : Option (List Int)) : Bool :=
  let nat_tuple : List Int :=
    match nation_id with
    | none => []
    | some l => l.mergeSort (fun a b => decide (a ≤ b))
  decide (ob_id_to_check ∈ find_orphaned_obs obFile unitFile (some nat_tuple))

/-- Reachability along upgrade edges: `x` is reached from `t` by zero or
more `upg_next` hops, all intermediate stops (including `t` and `x`)
being non-zero.  This is the specification-side notion the traced
reference set is proved to coincide with. -/
def Reaches (m : List (Int × Int)) (t x : Int) : Prop :=
  ∃ k : Nat, (∀ i ≤ k, (upg_next m)^[i] t ≠ 0) ∧ (upg_next m)^[k] t = x

/-- The rows of the unit file whose types seed the reference trace. -/
def unit_row_traced (natFilter : Option (Finset Int)) (row : USrcRow) : Bool :=
  !(nat_filtered_out natFilter (parse_int row.nat 0)) &&
    (parse_int row.uid 0 != 0) && (parse_int row.utype 0 != 0)

/-- The types of the nationality-passing active unit rows. -/
def unit_active_types (natFilter : Option (Finset Int)) (rows : List USrcRow) : List Int :=
  (rows.filter (unit_row_traced natFilter)).map (fun row => parse_int row.utype 0)

/-! ## core/generate_ob_chains.py -/

/-- An entry of a generated chain: a plain hop, or the `(LOOP)` marker
string appended when a hop revisits an id of the same walk. -/
inductive ChainEntry : Type
  | node (i : Int)
  | loopMark (i : Int)
  deriving Repr, DecidableEq

/-- The chain-tracing `while` loop of `generate_ob_chains`, with
explicit fuel and a completion flag exactly as in `trace_walk`: the
walk stops on 0, on an id without a name-map entry, or — recording the
`(LOOP)` marker — on an id already visited in this walk. -/
def chain_walk (nameMap : List (Int × String)) (upgMap : List (Int × Int)) :
    Nat → List ChainEntry → Finset Int → Int → List ChainEntry × Bool
  | 0, chain, _, _ => (chain, false)
  | fuel + 1, chain, visited, curr =>
    if curr = 0 then (chain, true)
    else if (dictGet nameMap curr).isNone then (chain, true)
    else if curr ∈ visited then (chain ++ [ChainEntry.loopMark curr], true)
    else chain_walk nameMap upgMap fuel (chain ++ [ChainEntry.node curr])
      (insert curr visited) (upg_next upgMap curr)

/-- The maps and sets `generate_ob_chains` builds in its reading pass. -/
structure ChainParseResult : Type where
  ob_id_to_name_map : List (Int × String)
  ob_id_to_upgrade_map : List (Int × Int)
  all_ob_ids : Finset Int
  ob_upgrade_ids : Finset Int

/-- The reading pass of `generate_ob_chains` (the per-row
`try/except` is dead in this model because `parse_int` never
raises). -/
def chain_parse (rows : List ObSrcRow) (natFilter : Option (Finset Int)) : ChainParseResult :=
  rows.foldl (fun acc row =>
    let ob_nation_id := parse_int row.nat 0
    if nat_filtered_out natFilter ob_nation_id then acc
    else if parse_int row.rtype 0 = 0 then acc
    else
      let ob_id := parse_int row.rid 0
      let ob_upgrade_id := parse_int row.upgrade 0
      let ob_full_name := parse_str row.name "" ++ " " ++ parse_str row.suffix ""
      let acc2 := { acc with
        ob_id_to_name_map := dictInsert acc.ob_id_to_name_map ob_id ob_full_name
        all_ob_ids := insert ob_id acc.all_ob_ids }
      if ob_upgrade_id ≠ 0 then
        { acc2 with
          ob_id_to_upgrade_map := dictInsert acc2.ob_id_to_upgrade_map ob_id ob_upgrade_id
          ob_upgrade_ids := insert ob_upgrade_id acc2.ob_upgrade_ids }
      else acc2) ⟨[], [], ∅, ∅⟩

/-- One chain record: root id, hop count and the traced entries (the
human-readable label join is external formatting). -/
structure ChainRecord : Type where
  root_id : Int
  length : Nat
  chain : List ChainEntry
  deriving Repr, DecidableEq

/-- Embeds `generate_ob_chains` up to the chain records it writes out:
roots are the ids never appearing as an upgrade target, sorted; a root
with a falsy name that also has no upgrade entry is skipped; each root
is traced with `chain_walk` and non-empty chains are recorded.  (The
CSV/plaintext writers are external collaborators.) -/
def generate_ob_chains (rows : List ObSrcRow) (natFilter : Option (Finset Int)) :
    List ChainRecord :=
  let p := chain_parse rows natFilter
  let roots := (p.all_ob_ids \ p.ob_upgrade_ids).sort (· ≤ ·)
  roots.filterMap (fun root =>
    if (dictGet p.ob_id_to_name_map root).getD "" = "" ∧
        (dictGet p.ob_id_to_upgrade_map root).isNone then none
    else
      let w := chain_walk p.ob_id_to_name_map p.ob_id_to_upgrade_map
        (p.ob_id_to_name_map.length + 2) [] ∅ root
      if w.1 = [] then none
      else some ⟨root, w.1.length, w.1⟩)

/-! ## Termination of the two chain walks (claim C4) -/

theorem dictGet_isSome_mem_keys {β : Type} (m : List (Int × β)) (k : Int)
    (h : (dictGet m k).isSome) : k ∈ m.map Prod.fst := by
  induction m with
  | nil => simp [dictGet] at h
  | cons p rest ih =>
    obtain ⟨a, b⟩ := p
    by_cases hak : a = k
    · simp [hak]
    · simp only [dictGet, if_neg hak] at h
      simpa using Or.inr (ih h)

theorem upg_next_mem_or_zero (m : List (Int × Int)) (x : Int) :
    upg_next m x = 0 ∨ upg_next m x ∈ m.map Prod.snd := by
  unfold upg_next
  cases h : dictGet m x with
  | none => exact Or.inl rfl
  | some v => exact Or.inr (by simpa using dictGet_mem_values m x v h)

theorem trace_walk_complete (m : List (Int × Int)) (cand : Finset Int)
    (hval : ∀ v ∈ m.map Prod.snd, v ∈ cand) :
    ∀ (fuel : Nat) (s : Finset Int) (curr : Int),
      curr = 0 ∨ curr ∈ s ∨ curr ∈ cand → (cand \ s).card < fuel →
      (trace_walk m fuel s curr).2 = true := by
  intro fuel
  induction fuel with
  | zero => intro s curr _ hfuel; omega
  | succ fuel ih =>
    intro s curr hcurr hfuel
    by_cases h0 : curr = 0
    · simp [trace_walk, h0]
    by_cases hs : curr ∈ s
    · simp [trace_walk, h0, hs]
    have hcand : curr ∈ cand := by
      rcases hcurr with hc | hc | hc
      · exact absurd hc h0
      · exact absurd hc hs
      · exact hc
    rw [show trace_walk m (fuel + 1) s curr =
        trace_walk m fuel (insert curr s) (upg_next m curr) by
      rw [trace_walk]
      rw [if_neg h0, if_neg hs]]
    apply ih
    · rcases upg_next_mem_or_zero m curr with hz | hv
      · exact Or.inl hz
      · exact Or.inr (Or.inr (hval _ hv))
    · have hmem : curr ∈ cand \ s := Finset.mem_sdiff.mpr ⟨hcand, hs⟩
      have : cand \ insert curr s = (cand \ s).erase curr := by
        rw [Finset.sdiff_insert]
      have hpos : 0 < (cand \ s).card := Finset.card_pos.mpr ⟨curr, hmem⟩
      rw [this, Finset.card_erase_of_mem hmem]
      omega

theorem trace_walk_fuel_sufficient (m : List (Int × Int)) (s : Finset Int) (curr : Int) :
    (trace_walk m (m.length + 2) s curr).2 = true := by
  apply trace_walk_complete m ((m.map Prod.snd).toFinset ∪ {curr})
    (fun v hv => Finset.mem_union_left _ (List.mem_toFinset.mpr hv))
  · exact Or.inr (Or.inr (Finset.mem_union_right _ (Finset.mem_singleton_self curr)))
  · have h2 : ((m.map Prod.snd).toFinset ∪ {curr}).card ≤
        (m.map Prod.snd).toFinset.card + 1 := by
      refine le_trans (Finset.card_union_le _ _) ?_
      simp
    have h3 : (m.map Prod.snd).toFinset.card ≤ m.length := by
      refine le_trans (List.toFinset_card_le _) ?_
      simp
    calc (((m.map Prod.snd).toFinset ∪ {curr}) \ s).card
        ≤ ((m.map Prod.snd).toFinset ∪ {curr}).card := Finset.card_le_card Finset.sdiff_subset
      _ ≤ m.length + 1 := le_trans h2 (by omega)
      _ < m.length + 2 := by omega

theorem chain_walk_complete (nm : List (Int × String)) (um : List (Int × Int)) :
    ∀ (fuel : Nat) (chain : List ChainEntry) (visited : Finset Int) (curr : Int),
      ((nm.map Prod.fst).toFinset \ visited).card < fuel →
      (chain_walk nm um fuel chain visited curr).2 = true := by
  intro fuel
  induction fuel with
  | zero => intro chain visited curr hfuel; omega
  | succ fuel ih =>
    intro chain visited curr hfuel
    by_cases h0 : curr = 0
    · simp [chain_walk, h0]
    by_cases hn : (dictGet nm curr).isNone
    · simp [chain_walk, h0, hn]
    by_cases hv : curr ∈ visited
    · simp [chain_walk, h0, hn, hv]
    rw [show chain_walk nm um (fuel + 1) chain visited curr =
        chain_walk nm um fuel (chain ++ [ChainEntry.node curr]) (insert curr visited)
          (upg_next um curr) by
      rw [chain_walk]
      rw [if_neg h0, if_neg hn, if_neg hv]]
    apply ih
    have hsome : (dictGet nm curr).isSome := by
      cases hdg : dictGet nm curr with
      | none => exact absurd (by simp [hdg]) hn
      | some v => simp
    have hkey : curr ∈ (nm.map Prod.fst).toFinset :=
      List.mem_toFinset.mpr (dictGet_isSome_mem_keys nm curr hsome)
    have hmem : curr ∈ (nm.map Prod.fst).toFinset \ visited :=
      Finset.mem_sdiff.mpr ⟨hkey, hv⟩
    have heq : (nm.map Prod.fst).toFinset \ insert curr visited =
        ((nm.map Prod.fst).toFinset \ visited).erase curr := by
      rw [Finset.sdiff_insert]
    have hpos : 0 < ((nm.map Prod.fst).toFinset \ visited).card :=
      Finset.card_pos.mpr ⟨curr, hmem⟩
    rw [heq, Finset.card_erase_of_mem hmem]
    omega

theorem chain_walk_fuel_sufficient (nm : List (Int × String)) (um : List (Int × Int))
    (chain : List ChainEntry) (visited : Finset Int) (curr : Int) :
    (chain_walk nm um (nm.length + 2) chain visited curr).2 = true := by
  apply chain_walk_complete
  have h3 : (nm.map Prod.fst).toFinset.card ≤ nm.length := by
    refine le_trans (List.toFinset_card_le _) ?_
    simp
  calc ((nm.map Prod.fst).toFinset \ visited).card
      ≤ (nm.map Prod.fst).toFinset.card := Finset.card_le_card Finset.sdiff_subset
    _ < nm.length + 2 := by omega

/-- Claim C4: for every upgrade map, including maps containing cycles
and self-loops, both chain walks terminate with the fuel the wrappers
pass (the completion flag is `true`, i.e. the loop always exits through
one of its stop conditions, never by running forever): the chain
generation walk, the unit-reference trace, and moreover a hop that
revisits an id already seen within the same chain walk appends the
`(LOOP)` marker and stops at once. -/
theorem c4_walks_terminate :
    (∀ (nm : List (Int × String)) (um : List (Int × Int)) (chain : List ChainEntry)
        (visited : Finset Int) (curr : Int),
      (chain_walk nm um (nm.length + 2) chain visited curr).2 = true) ∧
    (∀ (um : List (Int × Int)) (s : Finset Int) (curr : Int),
      (trace_walk um (um.length + 2) s curr).2 = true) ∧
    (∀ (nm : List (Int × String)) (um : List (Int × Int)) (fuel : Nat)
        (chain : List ChainEntry) (visited : Finset Int) (curr : Int),
      curr ≠ 0 → (dictGet nm curr).isSome → curr ∈ visited →
        chain_walk nm um (fuel + 1) chain visited curr =
          (chain ++ [ChainEntry.loopMark curr], true)) := by
  refine ⟨fun nm um chain visited curr => chain_walk_fuel_sufficient nm um chain visited curr,
    fun um s curr => trace_walk_fuel_sufficient um s curr,
    fun nm um fuel chain visited curr h0 hsome hvis => ?_⟩
  have hn : ¬ ((dictGet nm curr).isNone = true) := by
    simp only [Option.isNone_iff_eq_none]
    intro hnone
    rw [hnone] at hsome
    exact absurd hsome (by simp)
  rw [chain_walk]
  rw [if_neg h0, if_neg hn, if_pos hvis]

/-- Claim C4 witness: on the self-loop map 1 → 1 both walks complete,
and a revisit of id 1 produces exactly the loop marker. -/
theorem c4_walks_terminate_witness :
    (chain_walk [(1, "A")] [(1, 1)] (([(1, "A")] : List (Int × String)).length + 2)
        [] ∅ 1).2 = true ∧
    (trace_walk [(1, 1)] (([(1, 1)] : List (Int × Int)).length + 2) ∅ 1).2 = true ∧
    chain_walk [(1, "A")] [(1, 1)] (0 + 1) [] {1} 1 = ([ChainEntry.loopMark 1], true) := by
  refine ⟨c4_walks_terminate.1 [(1, "A")] [(1, 1)] [] ∅ 1,
    c4_walks_terminate.2.1 [(1, 1)] ∅ 1,
    ?_⟩
  have h := c4_walks_terminate.2.2 [(1, "A")] [(1, 1)] 0 [] {1} 1
    (by decide) (by decide) (by decide)
  simpa using h

/-- Claim C10: when either the `_ob` file or the `_unit` file does not
exist, `find_orphaned_obs` returns the empty set without raising, and
`is_ob_orphaned` therefore answers `false` for every queried id and
nationality argument. -/
theorem c10_missing_input_empty (obFile : Option (List ObSrcRow))
    (unitFile : Option (List USrcRow)) (nat_codes : Option (List Int))
    (qid : Int) (nation_id : Option (List Int))
    (h : obFile = none ∨ unitFile = none) :
    find_orphaned_obs obFile unitFile nat_codes = ∅ ∧
      is_ob_orphaned obFile unitFile qid nation_id = false := by
  have hempty : ∀ nc, find_orphaned_obs obFile unitFile nc = ∅ := by
    intro nc
    rcases h with h | h
    · rw [h]
      rfl
    · rw [h]
      cases obFile <;> rfl
  refine ⟨hempty nat_codes, ?_⟩
  simp [is_ob_orphaned, hempty]

/-- Claim C10 witness: with the `_ob` file missing and an existing empty
`_unit` file, the orphan set is empty and the cached query answers
`false`. -/
theorem c10_missing_input_empty_witness :
    find_orphaned_obs none (some []) none = ∅ ∧
      is_ob_orphaned none (some []) 5 none = false :=
  c10_missing_input_empty none (some []) none 5 none (Or.inl rfl)

/-! ## The traced reference set is the reachable set (claim C3) -/

theorem trace_walk_stop_zero (m : List (Int × Int)) (fuel : Nat) (s : Finset Int) (curr : Int)
    (h0 : curr = 0) : trace_walk m (fuel + 1) s curr = (s, true) := by
  rw [trace_walk]
  rw [if_pos h0]

theorem trace_walk_stop_mem (m : List (Int × Int)) (fuel : Nat) (s : Finset Int) (curr : Int)
    (h0 : curr ≠ 0) (hs : curr ∈ s) : trace_walk m (fuel + 1) s curr = (s, true) := by
  rw [trace_walk]
  rw [if_neg h0, if_pos hs]

theorem trace_walk_step (m : List (Int × Int)) (fuel : Nat) (s : Finset Int) (curr : Int)
    (h0 : curr ≠ 0) (hs : curr ∉ s) :
    trace_walk m (fuel + 1) s curr = trace_walk m fuel (insert curr s) (upg_next m curr) := by
  rw [trace_walk]
  rw [if_neg h0, if_neg hs]

theorem trace_walk_subset (m : List (Int × Int)) :
    ∀ (fuel : Nat) (s : Finset Int) (curr : Int), s ⊆ (trace_walk m fuel s curr).1 := by
  intro fuel
  induction fuel with
  | zero => intro s curr; exact subset_rfl
  | succ fuel ih =>
    intro s curr
    by_cases h0 : curr = 0
    · rw [trace_walk_stop_zero m fuel s curr h0]
    by_cases hs : curr ∈ s
    · rw [trace_walk_stop_mem m fuel s curr h0 hs]
    · rw [trace_walk_step m fuel s curr h0 hs]
      exact subset_trans (Finset.subset_insert curr s) (ih _ _)

theorem reaches_self (m : List (Int × Int)) (t : Int) (h : t ≠ 0) : Reaches m t t :=
  ⟨0, fun i hi => by rw [Nat.le_zero.mp hi]; simpa using h, rfl⟩

theorem reaches_of_next (m : List (Int × Int)) (t x : Int) (h : t ≠ 0)
    (hr : Reaches m (upg_next m t) x) : Reaches m t x := by
  obtain ⟨k, hnz, hx⟩ := hr
  refine ⟨k + 1, ?_, ?_⟩
  · intro i hi
    cases i with
    | zero => simpa using h
    | succ j =>
      rw [Function.iterate_succ_apply]
      exact hnz j (by omega)
  · rw [Function.iterate_succ_apply]
    exact hx

theorem trace_walk_sound (m : List (Int × Int)) :
    ∀ (fuel : Nat) (s : Finset Int) (curr x : Int),
      x ∈ (trace_walk m fuel s curr).1 → x ∈ s ∨ Reaches m curr x := by
  intro fuel
  induction fuel with
  | zero => intro s curr x hx; exact Or.inl hx
  | succ fuel ih =>
    intro s curr x hx
    by_cases h0 : curr = 0
    · rw [trace_walk_stop_zero m fuel s curr h0] at hx
      exact Or.inl hx
    by_cases hs : curr ∈ s
    · rw [trace_walk_stop_mem m fuel s curr h0 hs] at hx
      exact Or.inl hx
    · rw [trace_walk_step m fuel s curr h0 hs] at hx
      rcases ih (insert curr s) (upg_next m curr) x hx with hins | hr
      · rcases Finset.mem_insert.mp hins with hc | hmem
        · exact Or.inr (hc ▸ reaches_self m curr h0)
        · exact Or.inl hmem
      · exact Or.inr (reaches_of_next m curr x h0 hr)

/-- The loop invariant of the reference trace: the set is closed under
one upgrade hop (every member's successor is 0 or a member). -/
def UpgClosed (m : List (Int × Int)) (s : Finset Int) : Prop :=
  ∀ x ∈ s, upg_next m x = 0 ∨ upg_next m x ∈ s

theorem trace_walk_closed (m : List (Int × Int)) :
    ∀ (fuel : Nat) (s : Finset Int) (curr : Int),
      (∀ x ∈ s, upg_next m x = 0 ∨ upg_next m x ∈ s ∨ upg_next m x = curr) →
      (trace_walk m fuel s curr).2 = true →
      UpgClosed m (trace_walk m fuel s curr).1 := by
  intro fuel
  induction fuel with
  | zero =>
    intro s curr _ hc
    exact absurd hc (by simp [trace_walk])
  | succ fuel ih =>
    intro s curr hce hc
    by_cases h0 : curr = 0
    · rw [trace_walk_stop_zero m fuel s curr h0]
      intro x hx
      rcases hce x hx with hz | hsm | hcur
      · exact Or.inl hz
      · exact Or.inr hsm
      · rw [h0] at hcur
        exact Or.inl hcur
    by_cases hs : curr ∈ s
    · rw [trace_walk_stop_mem m fuel s curr h0 hs]
      intro x hx
      rcases hce x hx with hz | hsm | hcur
      · exact Or.inl hz
      · exact Or.inr hsm
      · rw [hcur]
        exact Or.inr hs
    · rw [trace_walk_step m fuel s curr h0 hs] at hc ⊢
      apply ih
      · intro x hx
        rcases Finset.mem_insert.mp hx with hxc | hxs
        · subst hxc
          exact Or.inr (Or.inr rfl)
        · rcases hce x hxs with hz | hsm | hcur
          · exact Or.inl hz
          · exact Or.inr (Or.inl (Finset.mem_insert_of_mem hsm))
          · rw [hcur]
            exact Or.inr (Or.inl (Finset.mem_insert_self curr s))
      · exact hc

theorem iterate_mem_of_closed (m : List (Int × Int)) (s : Finset Int)
    (hclosed : UpgClosed m s) (t : Int) (ht : t ∈ s) :
    ∀ k : Nat, (∀ i ≤ k, (upg_next m)^[i] t ≠ 0) → (upg_next m)^[k] t ∈ s := by
  intro k
  induction k with
  | zero => intro _; simpa using ht
  | succ k ih =>
    intro hnz
    have hmem := ih (fun i hi => hnz i (by omega))
    rcases hclosed _ hmem with hz | hsm
    · refine absurd ?_ (hnz (k + 1) (le_refl _))
      rw [Function.iterate_succ_apply']
      exact hz
    · rw [Function.iterate_succ_apply']
      exact hsm

theorem mem_of_reaches_closed (m : List (Int × Int)) (s : Finset Int)
    (hclosed : UpgClosed m s) (t x : Int) (ht : t ∈ s) (hr : Reaches m t x) : x ∈ s := by
  obtain ⟨k, hnz, hx⟩ := hr
  subst hx
  exact iterate_mem_of_closed m s hclosed t ht k hnz

theorem trace_walk_mem_start (m : List (Int × Int)) (fuel : Nat) (s : Finset Int) (curr : Int)
    (h0 : curr ≠ 0) : curr ∈ (trace_walk m (fuel + 1) s curr).1 := by
  by_cases hs : curr ∈ s
  · rw [trace_walk_stop_mem m fuel s curr h0 hs]
    exact hs
  · rw [trace_walk_step m fuel s curr h0 hs]
    exact trace_walk_subset m fuel _ _ (Finset.mem_insert_self curr s)

theorem trace_walk_result_closed (m : List (Int × Int)) (s : Finset Int) (curr : Int)
    (hclosed : UpgClosed m s) :
    UpgClosed m (trace_walk m (m.length + 2) s curr).1 :=
  trace_walk_closed m (m.length + 2) s curr
    (fun y hy => by
      rcases hclosed y hy with hz | hsm
      · exact Or.inl hz
      · exact Or.inr (Or.inl hsm))
    (trace_walk_fuel_sufficient m s curr)

theorem trace_walk_mem_iff (m : List (Int × Int)) (s : Finset Int) (curr x : Int)
    (hclosed : UpgClosed m s) (h0 : curr ≠ 0) :
    x ∈ (trace_walk m (m.length + 2) s curr).1 ↔ x ∈ s ∨ Reaches m curr x := by
  constructor
  · exact trace_walk_sound m (m.length + 2) s curr x
  · rintro (hx | hr)
    · exact trace_walk_subset m (m.length + 2) s curr hx
    · have hcl := trace_walk_result_closed m s curr hclosed
      have hstart : curr ∈ (trace_walk m (m.length + 2) s curr).1 :=
        trace_walk_mem_start m (m.length + 1) s curr h0
      exact mem_of_reaches_closed m _ hcl curr x hstart hr

theorem unit_active_types_cons (natF : Option (Finset Int)) (r : USrcRow) (rest : List USrcRow) :
    unit_active_types natF (r :: rest) =
      if unit_row_traced natF r then parse_int r.utype 0 :: unit_active_types natF rest
      else unit_active_types natF rest := by
  simp only [unit_active_types, List.filter_cons]
  split
  · simp
  · rfl

theorem mem_trace_unit_references (upg : List (Int × Int)) (natFilter : Option (Finset Int))
    (rows : List USrcRow) (x : Int) :
    x ∈ trace_unit_references upg natFilter rows ↔
      ∃ t ∈ unit_active_types natFilter rows, Reaches upg t x := by
  suffices main : ∀ (l : List USrcRow) (s : Finset Int), UpgClosed upg s →
      ((x ∈ l.foldl (fun s row =>
          let u_nat := parse_int row.nat 0
          if nat_filtered_out natFilter u_nat then s
          else
            let u_id := parse_int row.uid 0
            let u_type := parse_int row.utype 0
            if u_id ≠ 0 ∧ u_type ≠ 0 then (trace_walk upg (upg.length + 2) s u_type).1
            else s) s ↔
        x ∈ s ∨ ∃ t ∈ unit_active_types natFilter l, Reaches upg t x) ∧
      UpgClosed upg (l.foldl (fun s row =>
          let u_nat := parse_int row.nat 0
          if nat_filtered_out natFilter u_nat then s
          else
            let u_id := parse_int row.uid 0
            let u_type := parse_int row.utype 0
            if u_id ≠ 0 ∧ u_type ≠ 0 then (trace_walk upg (upg.length + 2) s u_type).1
            else s) s)) by
    have h := (main rows ∅ (fun y hy => absurd hy (Finset.not_mem_empty y))).1
    simp only [Finset.not_mem_empty, false_or] at h
    exact h
  intro l
  induction l with
  | nil =>
    intro s hcl
    refine ⟨?_, hcl⟩
    simp [unit_active_types]
  | cons r rest ih =>
    intro s hcl
    simp only [List.foldl_cons]
    by_cases hnat : nat_filtered_out natFilter (parse_int r.nat 0)
    · have hstep : (if nat_filtered_out natFilter (parse_int r.nat 0) = true then s
          else if parse_int r.uid 0 ≠ 0 ∧ parse_int r.utype 0 ≠ 0 then
            (trace_walk upg (upg.length + 2) s (parse_int r.utype 0)).1
          else s) = s := by
        rw [if_pos hnat]
      have htraced : unit_row_traced natFilter r = false := by
        simp [unit_row_traced, hnat]
      rw [hstep, unit_active_types_cons, htraced]
      exact ih s hcl
    · by_cases hactive : parse_int r.uid 0 ≠ 0 ∧ parse_int r.utype 0 ≠ 0
      · have hstep : (if nat_filtered_out natFilter (parse_int r.nat 0) = true then s
            else if parse_int r.uid 0 ≠ 0 ∧ parse_int r.utype 0 ≠ 0 then
              (trace_walk upg (upg.length + 2) s (parse_int r.utype 0)).1
            else s) = (trace_walk upg (upg.length + 2) s (parse_int r.utype 0)).1 := by
          rw [if_neg hnat, if_pos hactive]
        have htraced : unit_row_traced natFilter r = true := by
          simp [unit_row_traced, hnat, hactive.1, hactive.2]
        rw [hstep, unit_active_types_cons, htraced]
        have hclw := trace_walk_result_closed upg s (parse_int r.utype 0) hcl
        obtain ⟨hmem, hclrest⟩ := ih (trace_walk upg (upg.length + 2) s (parse_int r.utype 0)).1 hclw
        refine ⟨?_, hclrest⟩
        rw [hmem, trace_walk_mem_iff upg s (parse_int r.utype 0) x hcl hactive.2]
        constructor
        · rintro ((hx | hr) | ⟨t, htmem, hrt⟩)
          · exact Or.inl hx
          · exact Or.inr ⟨parse_int r.utype 0, List.mem_cons_self _ _, hr⟩
          · exact Or.inr ⟨t, List.mem_cons_of_mem _ htmem, hrt⟩
        · rintro (hx | ⟨t, htmem, hrt⟩)
          · exact Or.inl (Or.inl hx)
          · rcases List.mem_cons.mp htmem with ht | ht
            · exact Or.inl (Or.inr (ht ▸ hrt))
            · exact Or.inr ⟨t, ht, hrt⟩
      · have hstep : (if nat_filtered_out natFilter (parse_int r.nat 0) = true then s
            else if parse_int r.uid 0 ≠ 0 ∧ parse_int r.utype 0 ≠ 0 then
              (trace_walk upg (upg.length + 2) s (parse_int r.utype 0)).1
            else s) = s := by
          rw [if_neg hnat, if_neg hactive]
        have hcases : parse_int r.uid 0 = 0 ∨ parse_int r.utype 0 = 0 := by
          by_contra hb
          push_neg at hb
          exact hactive hb
        have htraced : unit_row_traced natFilter r = false := by
          rcases hcases with hz | hz <;> simp [unit_row_traced, hz]
        rw [hstep, unit_active_types_cons, htraced]
        exact ih s hcl

/-- The `_ob.csv` of the spec's orphan scenario: chain A 10→20→30→0
(nationality 1), chain B 40→50→0 (nationality 2), cycle C 60→70→80→70
(nationality 1); every row active. -/
def c3_ob_rows : List ObSrcRow :=
  [⟨some "1", some "10", some "1", some "20", some "A", some ""⟩,
   ⟨some "1", some "20", some "1", some "30", some "A", some ""⟩,
   ⟨some "1", some "30", some "1", some "0", some "A", some ""⟩,
   ⟨some "2", some "40", some "1", some "50", some "B", some ""⟩,
   ⟨some "2", some "50", some "1", some "0", some "B", some ""⟩,
   ⟨some "1", some "60", some "1", some "70", some "C", some ""⟩,
   ⟨some "1", some "70", some "1", some "80", some "C", some ""⟩,
   ⟨some "1", some "80", some "1", some "70", some "C", some ""⟩]

/-- The `_unit.csv` of the scenario: one active Unit referencing
Template 10. -/
def c3_unit_rows : List USrcRow :=
  [⟨some "1", some "1", some "U", some "10"⟩]

set_option maxRecDepth 40000 in
/-- Claim C3: the orphan analysis returns exactly (active Template ids)
minus (ids reachable from some active Unit's type via zero or more
upgrade edges), and the invalid-reference set is the reachable set
minus the active set; in the spec's scenario (chains 10→20→30→0, 40→50
of another nationality, cycle 60→70→80→70, one Unit referencing 10 and
no nationality filter) the orphan set is exactly {40, 50, 60, 70, 80}
— it excludes the reachable chain {10, 20, 30} and contains every
never-referenced id of chain B and cycle C — and the invalid-reference
set is empty. -/
theorem c3_orphans_are_unreachable :
    (∀ (obRows : List ObSrcRow) (unitRows : List USrcRow)
        (natFilter : Option (Finset Int)) (x : Int),
      (x ∈ (find_orphaned_pair obRows unitRows natFilter).1 ↔
        x ∈ (parse_ob_data obRows natFilter).active_obs ∧
          ¬ ∃ t ∈ unit_active_types natFilter unitRows,
              Reaches (parse_ob_data obRows natFilter).ob_id_upgrade t x) ∧
      (x ∈ (find_orphaned_pair obRows unitRows natFilter).2 ↔
        (∃ t ∈ unit_active_types natFilter unitRows,
            Reaches (parse_ob_data obRows natFilter).ob_id_upgrade t x) ∧
          x ∉ (parse_ob_data obRows natFilter).active_obs)) ∧
    find_orphaned_obs (some c3_ob_rows) (some c3_unit_rows) none =
      ({40, 50, 60, 70, 80} : Finset Int) ∧
    (find_orphaned_pair c3_ob_rows c3_unit_rows none).2 = ∅ := by
  refine ⟨?_, by decide, by decide⟩
  intro obRows unitRows natFilter x
  constructor
  · rw [show (find_orphaned_pair obRows unitRows natFilter).1 =
        (parse_ob_data obRows natFilter).active_obs \
          trace_unit_references (parse_ob_data obRows natFilter).ob_id_upgrade
            natFilter unitRows from rfl]
    rw [Finset.mem_sdiff, mem_trace_unit_references]
  · rw [show (find_orphaned_pair obRows unitRows natFilter).2 =
        trace_unit_references (parse_ob_data obRows natFilter).ob_id_upgrade
          natFilter unitRows \ (parse_ob_data obRows natFilter).active_obs from rfl]
    rw [Finset.mem_sdiff, mem_trace_unit_references]

/-! ## auditing/validator.py : evaluate_ob_consistency (claims C6, C8)

Unlike the unit validator, `evaluate_ob_consistency` reads its squad
cells as raw strings with default "0" and converts the identifier with
a bare `int(...)`: a non-numeric cell raises `ValueError`, which only
the catch-all handler around the whole loop sees.  The embedding makes
that exceptional control flow explicit with `Except Unit`. -/

/-- A dict-style `_ob.csv` row as read by `evaluate_ob_consistency`:
the cells it reads, plus the row's field count (`len(row)`) checked
against the header length. -/
structure ObRowV : Type where
  rid : Option String
  rtype : Option String
  firstYear : Option String
  rowLen : Nat
  sqd_u : List (Option String)
  sqd_num : List (Option String)
  deriving Repr, DecidableEq

/-- `row.get(f"sqd.u{i}", "0")`. -/
def ob_sqd_u_cell (row : ObRowV) (i : Nat) : String :=
  (row.sqd_u.getD i none).getD "0"

/-- `row.get(f"sqd.num{i}", "0")`. -/
def ob_sqd_num_cell (row : ObRowV) (i : Nat) : String :=
  (row.sqd_num.getD i none).getD "0"

/-- `parse_int(row.get('id') or '0')`. -/
def ob_row_id (row : ObRowV) : Int :=
  parse_int (some (py_or row.rid "0")) 0

/-- `parse_int(row.get('type') or '0')`. -/
def ob_row_type (row : ObRowV) : Int :=
  parse_int (some (py_or row.rtype "0")) 0

/-- `parse_int(row.get('firstYear') or '0')`. -/
def ob_row_first_year (row : ObRowV) : Int :=
  parse_int (some (py_or row.firstYear "0")) 0

/-- The duplicate-id defect of `evaluate_ob_consistency`: emitted when
the row's parsed id — placeholder ids included, there is no activity
filter — was already seen. -/
def ob_dup_issue (seen : Finset Int) (row : ObRowV) : Nat :=
  if ob_row_id row ∈ seen then 1 else 0

/-- One squad slot of `evaluate_ob_consistency`: a cell different from
"0" goes through `int(...)` — a failed conversion raises (`error`) —
and an id outside the valid element set is one issue; a quantity cell
different from "0" with id cell "0" is a Ghost Squad issue. -/
def ob_slot_check (valid : Finset Int) (row : ObRowV) (i : Nat) : Except Unit Nat :=
  let sqd_id_val := ob_sqd_u_cell row i
  let squad_quantity := ob_sqd_num_cell row i
  if sqd_id_val ≠ "0" then
    match str_to_int? sqd_id_val with
    | none => Except.error ()
    | some n =>
      Except.ok ((if n ∉ valid then 1 else 0) +
        (if squad_quantity ≠ "0" ∧ sqd_id_val = "0" then 1 else 0))
  else
    Except.ok (if squad_quantity ≠ "0" ∧ sqd_id_val = "0" then 1 else 0)

/-- The squad loop over the slot indices, short-circuiting on the first
raised conversion. -/
def ob_slots_check (valid : Finset Int) (row : ObRowV) :
    List Nat → Nat → Except Unit Nat
  | [], acc => Except.ok acc
  | i :: rest, acc =>
    match ob_slot_check valid row i with
    | Except.error e => Except.error e
    | Except.ok n => ob_slots_check valid row rest (acc + n)

/-- One row of `evaluate_ob_consistency`: duplicate id, active row with
first year 0, column-count mismatch, then the squad loop. -/
def ob_row_check (headerLen : Nat) (valid : Finset Int) (seen : Finset Int)
    (row : ObRowV) : Except Unit (Nat × Finset Int) :=
  let ob_id := ob_row_id row
  let dup := ob_dup_issue seen row
  let seen2 := if ob_id ∈ seen then seen else insert ob_id seen
  let fy := if ob_row_type row ≠ 0 ∧ ob_row_first_year row = 0 then 1 else 0
  let lenIssue := if row.rowLen ≠ headerLen then 1 else 0
  match ob_slots_check valid row (List.range MAX_SQUAD_SLOTS) 0 with
  | Except.error e => Except.error e
  | Except.ok slotIssues => Except.ok (dup + fy + lenIssue + slotIssues, seen2)

/-- The main row loop, threading the issue count and the seen-id set. -/
def ob_rows_check (headerLen : Nat) (valid : Finset Int) :
    List ObRowV → Nat → Finset Int → Except Unit Nat
  | [], acc, _ => Except.ok acc
  | row :: rest, acc, seen =>
    match ob_row_check headerLen valid seen row with
    | Except.error e => Except.error e
    | Except.ok p => ob_rows_check headerLen valid rest (acc + p.1) p.2

/-- Embeds `evaluate_ob_consistency`: valid element ids from the ground
file, then the row loop; an escaped exception is turned into the
sentinel -1 by the catch-all handler. -/
def evaluate_ob_consistency (ground : List (List String)) (headerLen : Nat)
    (rows : List ObRowV) : Int :=
  match ob_rows_check headerLen (get_valid_ground_elem_ids ground) rows 0 ∅ with
  | Except.error _ => -1
  | Except.ok n => (n : Int)

/-- A slot-identifier cell that makes `int(...)` raise: different from
"0" and not parseable as an integer. -/
def BadSlotCell (row : ObRowV) (i : Nat) : Prop :=
  ob_sqd_u_cell row i ≠ "0" ∧ str_to_int? (ob_sqd_u_cell row i) = none

instance (row : ObRowV) (i : Nat) : Decidable (BadSlotCell row i) :=
  inferInstanceAs (Decidable (_ ∧ _))

theorem ob_slot_check_error_iff (valid : Finset Int) (row : ObRowV) (i : Nat) :
    ob_slot_check valid row i = Except.error () ↔ BadSlotCell row i := by
  unfold ob_slot_check BadSlotCell
  dsimp only
  by_cases hz : ob_sqd_u_cell row i ≠ "0"
  · rw [if_pos hz]
    cases hp : str_to_int? (ob_sqd_u_cell row i) with
    | none => simp [hz]
    | some n => simp [hz]
  · rw [if_neg hz]
    simp only [not_not] at hz
    simp [hz]

theorem ob_slots_check_error_iff (valid : Finset Int) (row : ObRowV) :
    ∀ (L : List Nat) (acc : Nat),
      ob_slots_check valid row L acc = Except.error () ↔ ∃ i ∈ L, BadSlotCell row i := by
  intro L
  induction L with
  | nil => intro acc; simp [ob_slots_check]
  | cons i rest ih =>
    intro acc
    rw [ob_slots_check]
    cases hstep : ob_slot_check valid row i with
    | error e =>
      obtain rfl : e = () := rfl
      simp only []
      constructor
      · intro _
        exact ⟨i, List.mem_cons_self i rest, (ob_slot_check_error_iff valid row i).mp hstep⟩
      · intro _
        trivial
    | ok n =>
      simp only []
      rw [ih (acc + n)]
      constructor
      · rintro ⟨j, hj, hbad⟩
        exact ⟨j, List.mem_cons_of_mem i hj, hbad⟩
      · rintro ⟨j, hj, hbad⟩
        rcases List.mem_cons.mp hj with hji | hji
        · subst hji
          have := (ob_slot_check_error_iff valid row j).mpr hbad
          rw [this] at hstep
          exact absurd hstep (by simp)
        · exact ⟨j, hji, hbad⟩

theorem ob_row_check_error_iff (headerLen : Nat) (valid : Finset Int) (seen : Finset Int)
    (row : ObRowV) :
    ob_row_check headerLen valid seen row = Except.error () ↔
      ∃ i < MAX_SQUAD_SLOTS, BadSlotCell row i := by
  unfold ob_row_check
  dsimp only
  cases hslots : ob_slots_check valid row (List.range MAX_SQUAD_SLOTS) 0 with
  | error e =>
    obtain rfl : e = () := rfl
    simp only []
    constructor
    · intro _
      obtain ⟨i, hi, hbad⟩ := (ob_slots_check_error_iff valid row _ 0).mp hslots
      exact ⟨i, List.mem_range.mp hi, hbad⟩
    · intro _
      trivial
  | ok n =>
    simp only []
    constructor
    · intro hc
      exact absurd hc (by simp)
    · rintro ⟨i, hi, hbad⟩
      have : ob_slots_check valid row (List.range MAX_SQUAD_SLOTS) 0 = Except.error () :=
        (ob_slots_check_error_iff valid row _ 0).mpr ⟨i, List.mem_range.mpr hi, hbad⟩
      rw [this] at hslots
      exact absurd hslots (by simp)

theorem ob_rows_check_error_iff (headerLen : Nat) (valid : Finset Int) :
    ∀ (rows : List ObRowV) (acc : Nat) (seen : Finset Int),
      ob_rows_check headerLen valid rows acc seen = Except.error () ↔
        ∃ row ∈ rows, ∃ i < MAX_SQUAD_SLOTS, BadSlotCell row i := by
  intro rows
  induction rows with
  | nil => intro acc seen; simp [ob_rows_check]
  | cons row rest ih =>
    intro acc seen
    rw [ob_rows_check]
    cases hstep : ob_row_check headerLen valid seen row with
    | error e =>
      obtain rfl : e = () := rfl
      simp only []
      constructor
      · intro _
        exact ⟨row, List.mem_cons_self row rest,
          (ob_row_check_error_iff headerLen valid seen row).mp hstep⟩
      · intro _
        trivial
    | ok p =>
      simp only []
      rw [ih (acc + p.1) p.2]
      constructor
      · rintro ⟨r, hr, hbad⟩
        exact ⟨r, List.mem_cons_of_mem row hr, hbad⟩
      · rintro ⟨r, hr, hbad⟩
        rcases List.mem_cons.mp hr with hrr | hrr
        · subst hrr
          have := (ob_row_check_error_iff headerLen valid seen r).mpr hbad
          rw [this] at hstep
          exact absurd hstep (by simp)
        · exact ⟨r, hrr, hbad⟩

/-- An `_ob` row whose slot-0 identifier cell is the non-numeric string
"abc" (and is otherwise unremarkable: active, plausible year, matching
column count). -/
def c6_bad_row : ObRowV :=
  ⟨some "1", some "1", some "1941", 5, [some "abc"], []⟩

/-- A placeholder `_ob` row: id 0, type 0, no squad cells. -/
def c8_placeholder_row : ObRowV :=
  ⟨some "0", some "0", some "0", 3, [], []⟩

set_option maxRecDepth 20000 in
/-- Claim C6 counterexample: a single row whose slot-identifier cell is
the non-numeric "abc" makes `evaluate_ob_consistency` return the
sentinel -1 — the `int()` conversion raises `ValueError`, the catch-all
handler aborts the whole run — instead of counting one defect, skipping
the row and continuing to a non-negative count as the claim states. -/
theorem c6_counterexample :
    evaluate_ob_consistency [] 5 [c6_bad_row] = -1 ∧
      ¬ 0 ≤ evaluate_ob_consistency [] 5 [c6_bad_row] := by
  constructor
  · decide
  · decide

set_option maxRecDepth 20000 in
/-- Claim C6 (amended): `evaluate_ob_consistency` returns the sentinel
-1 exactly when some scanned row has a slot-identifier cell that is
different from "0" and non-numeric (the bare `int()` raises and the
catch-all handler aborts the run) — so row-level conversion failure is
NOT absorbed as a single counted defect; required fields read through
`parse_int` (id, type, firstYear) default to 0 on parse failure and
never abort, and when every slot-identifier cell parses the run
completes with a non-negative count. -/
theorem c6_sentinel_on_bad_slot_cell :
    (∀ (ground : List (List String)) (headerLen : Nat) (rows : List ObRowV),
      evaluate_ob_consistency ground headerLen rows = -1 ↔
        ∃ row ∈ rows, ∃ i < MAX_SQUAD_SLOTS, BadSlotCell row i) ∧
    (∀ (ground : List (List String)) (headerLen : Nat) (rows : List ObRowV),
      (¬ ∃ row ∈ rows, ∃ i < MAX_SQUAD_SLOTS, BadSlotCell row i) →
        0 ≤ evaluate_ob_consistency ground headerLen rows) ∧
    evaluate_ob_consistency [] 5 [c6_bad_row] = -1 := by
  have hiff : ∀ (ground : List (List String)) (headerLen : Nat) (rows : List ObRowV),
      evaluate_ob_consistency ground headerLen rows = -1 ↔
        ∃ row ∈ rows, ∃ i < MAX_SQUAD_SLOTS, BadSlotCell row i := by
    intro ground headerLen rows
    unfold evaluate_ob_consistency
    cases hrun : ob_rows_check headerLen (get_valid_ground_elem_ids ground) rows 0 ∅ with
    | error e =>
      obtain rfl : e = () := rfl
      simp only []
      constructor
      · intro _
        exact (ob_rows_check_error_iff headerLen _ rows 0 ∅).mp hrun
      · intro _
        trivial
    | ok n =>
      simp only []
      constructor
      · intro hc
        exact absurd hc (by omega)
      · intro hex
        have := (ob_rows_check_error_iff headerLen
          (get_valid_ground_elem_ids ground) rows 0 ∅).mpr hex
        rw [this] at hrun
        exact absurd hrun (by simp)
  refine ⟨hiff, ?_, by decide⟩
  intro ground headerLen rows hnone
  unfold evaluate_ob_consistency
  cases hrun : ob_rows_check headerLen (get_valid_ground_elem_ids ground) rows 0 ∅ with
  | error e =>
    obtain rfl : e = () := rfl
    exact absurd ((ob_rows_check_error_iff headerLen _ rows 0 ∅).mp hrun) hnone
  | ok n =>
    simp

set_option maxRecDepth 20000 in
/-- Claim C6 witness for the hypothesis-bearing conjunct: on a table
whose only row has all slot cells "0", there is no bad cell and the
validator returns a non-negative count. -/
theorem c6_sentinel_on_bad_slot_cell_witness :
    0 ≤ evaluate_ob_consistency [] 3 [c8_placeholder_row] :=
  c6_sentinel_on_bad_slot_cell.2.1 [] 3 [c8_placeholder_row] (by decide)

set_option maxRecDepth 20000 in
/-- Claim C8 counterexample: two placeholder rows (id 0, type 0) make
`evaluate_ob_consistency` report exactly one duplicate-id defect — the
duplicate-key rule has no activity filter in the OB validators, so
placeholder rows do contribute to and trigger it. -/
theorem c8_counterexample :
    evaluate_ob_consistency [] 3 [c8_placeholder_row, c8_placeholder_row] = 1 := by
  decide

set_option maxRecDepth 20000 in
/-- Claim C8 (amended): a duplicate-primary-key defect is emitted when a
key value is seen twice among the rows the validator tracks.  In the
unit validator with `active_only=True`, placeholder/inactive rows are
skipped before the duplicate check and never contribute.  In the OB
validator, however, every row's id — placeholder ids included — enters
the seen-set and a repeat (e.g. two id=0 placeholder rows) does trigger
a duplicate-key defect. -/
theorem c8_dup_key_scope :
    (∀ (headerLen : Nat) (valid seen : Finset Int) (row : ObRowV) (n : Nat)
        (seen2 : Finset Int),
      ob_row_check headerLen valid seen row = Except.ok (n, seen2) →
        (ob_row_id row ∈ seen → 1 ≤ n) ∧
          (ob_row_id row ∉ seen → seen2 = insert (ob_row_id row) seen)) ∧
    (∀ (ve vu : Finset Int) (fix : Bool) (st : UnitEvalState) (row : UnitRow),
      parse_int row.uid 0 = 0 ∨ parse_int row.utype 0 = 0 →
        (unit_row_step ve vu true fix st row).issues = st.issues ∧
          (unit_row_step ve vu true fix st row).seen = st.seen ∧
          (unit_row_step ve vu true fix st row).fixed = st.fixed) ∧
    evaluate_ob_consistency [] 3 [c8_placeholder_row, c8_placeholder_row] = 1 := by
  refine ⟨?_, ?_, by decide⟩
  · intro headerLen valid seen row n seen2 hok
    unfold ob_row_check at hok
    dsimp only at hok
    cases hslots : ob_slots_check valid row (List.range MAX_SQUAD_SLOTS) 0 with
    | error e =>
      rw [hslots] at hok
      exact absurd hok (by simp)
    | ok slotIssues =>
      rw [hslots] at hok
      simp only [Except.ok.injEq, Prod.mk.injEq] at hok
      obtain ⟨hn, hseen⟩ := hok
      constructor
      · intro hmem
        rw [← hn]
        unfold ob_dup_issue
        rw [if_pos hmem]
        omega
      · intro hmem
        rw [← hseen, if_neg hmem]
  · intro ve vu fix st row hskip
    have hcond : (true = true) ∧ (parse_int row.uid 0 = 0 ∨ parse_int row.utype 0 = 0) :=
      ⟨rfl, hskip⟩
    unfold unit_row_step
    dsimp only
    rw [if_pos hcond]
    exact ⟨rfl, rfl, rfl⟩

set_option maxRecDepth 20000 in
/-- Claim C8 witness: the OB row check on a placeholder row with its id
already seen yields at least one defect, and the unit validator's
active-only pass leaves its state untouched on an inactive row. -/
theorem c8_dup_key_scope_witness :
    (∃ n seen2, ob_row_check 3 ∅ {0} c8_placeholder_row = Except.ok (n, seen2) ∧ 1 ≤ n) ∧
    (unit_row_step ∅ ∅ true false ⟨0, 0, ∅, []⟩
        { unitRowBase with utype := some "0" }).issues = 0 := by
  constructor
  · refine ⟨1, {0}, by rfl, ?_⟩
    have h := (c8_dup_key_scope.1 3 ∅ {0} c8_placeholder_row 1 {0} (by rfl)).1 (by decide)
    exact h
  · exact (c8_dup_key_scope.2.1 ∅ ∅ false ⟨0, 0, ∅, []⟩
      { unitRowBase with utype := some "0" } (Or.inr (by decide))).1

end Wite2
